import Mathlib

/-!
Verification of the Donetick Home Assistant integration's scheduling and
classification core (`custom_components/donetick/todo.py`).

The Python code is shallowly embedded: `datetime` values become explicit
calendar records, timezone-aware datetimes carry a fixed UTC offset in
seconds, Python exceptions (`ValueError` / `OverflowError` raised by
`datetime.replace` and out-of-range arithmetic) become the `.error` case of
`Except Unit`, and the mutable per-component dictionaries become explicit
state values threaded through pure transition functions.  `Int` division
`/` and `%` here agree with Python `//` and `%` for the positive divisors
used throughout.
-/

namespace Donetick

/-! ## Calendar arithmetic (proleptic Gregorian, models Python `datetime`) -/

/-- Gregorian leap-year test, as used by Python `calendar.isleap`. -/
def isLeapYear (y : Int) : Bool :=
  y % 4 == 0 && (y % 100 != 0 || y % 400 == 0)

/-- Length of a month, as returned by Python `calendar.monthrange(y, m)[1]`. -/
def daysInMonth (y m : Int) : Int :=
  if m = 2 then (if isLeapYear y then 29 else 28)
  else if m = 4 ∨ m = 6 ∨ m = 9 ∨ m = 11 then 30
  else 31

/-- Days between 1970-01-01 and the given civil date (Hinnant algorithm);
models the day count underlying Python `datetime.toordinal`. -/
def daysFromCivil (y0 m d : Int) : Int :=
  let y := y0 - (if m ≤ 2 then 1 else 0)
  let era := y / 400
  let yoe := y - era * 400
  let doy := (153 * (m + (if m > 2 then -3 else 9)) + 2) / 5 + d - 1
  let doe := yoe * 365 + yoe / 4 - yoe / 100 + doy
  era * 146097 + doe - 719468

/-- Inverse of `daysFromCivil`: civil date from a day count. -/
def civilFromDays (z0 : Int) : Int × Int × Int :=
  let z := z0 + 719468
  let era := z / 146097
  let doe := z - era * 146097
  let yoe := (doe - doe / 1460 + doe / 36524 - doe / 146096) / 365
  let y := yoe + era * 400
  let doy := doe - (365 * yoe + yoe / 4 - yoe / 100)
  let mp := (5 * doy + 2) / 153
  let d := doy - (153 * mp + 2) / 5 + 1
  let m := mp + (if mp < 10 then 3 else -9)
  (y + (if m ≤ 2 then 1 else 0), m, d)

/-! ## Wall-clock datetimes and aware datetimes -/

/-- The naive part of a Python `datetime` (microseconds are dropped: every
instant the claims depend on is a whole second). -/
structure WallClock where
  year : Int
  month : Int
  day : Int
  hour : Int
  minute : Int
  second : Int
deriving DecidableEq, Repr

/-- Seconds between 1970-01-01T00:00:00 and this wall-clock reading. -/
def WallClock.toSecs (w : WallClock) : Int :=
  daysFromCivil w.year w.month w.day * 86400 + w.hour * 3600 + w.minute * 60 + w.second

/-- Wall-clock reading from a second count. -/
def WallClock.ofSecs (s : Int) : WallClock :=
  ⟨(civilFromDays (s / 86400)).1, (civilFromDays (s / 86400)).2.1, (civilFromDays (s / 86400)).2.2,
    s % 86400 / 3600, s % 86400 % 3600 / 60, s % 86400 % 60⟩

/-- A Python `datetime`: wall-clock fields plus an optional fixed UTC offset
in seconds (`none` models a naive datetime, `some 0` models UTC). -/
structure DT where
  wall : WallClock
  tz : Option Int
deriving DecidableEq, Repr

/-- The UTC instant of an aware datetime, in seconds.  (Only used on aware
values; the embedded code attaches a zone before every comparison, exactly
as the source does.) -/
def DT.instant (dt : DT) : Int := dt.wall.toSecs - dt.tz.getD 0

/-- Python `datetime.astimezone(tz)` for fixed-offset zones. -/
def DT.astimezone (dt : DT) (off : Int) : DT :=
  ⟨WallClock.ofSecs (dt.instant + off), some off⟩

/-- Models `d.replace(tzinfo=ZoneInfo("UTC")) if d.tzinfo is None else d`,
the normalization the source applies to naive due dates before comparing. -/
def ensureUTC (dt : DT) : DT := if dt.tz.isNone then { dt with tz := some 0 } else dt

/-- `d + timedelta(seconds=s)` ignoring Python's year-range check (used for
the always-in-range additions: one-second buffers, reminder offsets, window
cutoffs). -/
def addSecondsP (dt : DT) (s : Int) : DT :=
  ⟨WallClock.ofSecs (dt.wall.toSecs + s), dt.tz⟩

/-- `d + timedelta(seconds=s)` with Python's `OverflowError` when the result
falls outside years 1..9999, modelled as `.error`. -/
def addSecondsE (dt : DT) (s : Int) : Except Unit DT :=
  if (WallClock.ofSecs (dt.wall.toSecs + s)).year < 1 ∨
      9999 < (WallClock.ofSecs (dt.wall.toSecs + s)).year then .error ()
  else .ok ⟨WallClock.ofSecs (dt.wall.toSecs + s), dt.tz⟩

/-- Python `d.replace(year=y, month=m, day=d)`: validates the new date and
raises `ValueError` (modelled as `.error`) when it is not a real date. -/
def pyReplaceDate (dt : DT) (y m d : Int) : Except Unit DT :=
  if 1 ≤ y ∧ y ≤ 9999 ∧ 1 ≤ m ∧ m ≤ 12 ∧ 1 ≤ d ∧ d ≤ daysInMonth y m then
    .ok ⟨⟨y, m, d, dt.wall.hour, dt.wall.minute, dt.wall.second⟩, dt.tz⟩
  else .error ()

/-- Python `datetime.weekday()`: Monday is 0.  1970-01-01 was a Thursday. -/
def weekdayOfDT (dt : DT) : Int :=
  (daysFromCivil dt.wall.year dt.wall.month dt.wall.day + 3) % 7

/-! ## Task model (`model.py`, constants from `const.py`) -/

def FREQUENCY_ONCE : String := "once"

def FREQUENCY_DAILY : String := "daily"

def FREQUENCY_WEEKLY : String := "weekly"

def FREQUENCY_MONTHLY : String := "monthly"

def FREQUENCY_YEARLY : String := "yearly"

def FREQUENCY_INTERVAL : String := "interval"

def FREQUENCY_DAYS_OF_WEEK : String := "days_of_the_week"

def FREQUENCY_DAY_OF_MONTH : String := "day_of_the_month"

def FREQUENCY_NO_REPEAT : String := "no_repeat"

def NOTIFICATION_REMINDER_INTERVAL : Int := 86400

def PRIORITY_P1 : Int := 1

def PRIORITY_P2 : Int := 2

def DEFAULT_UPCOMING_DAYS : Int := 7

/-- The typed view of the `frequency_metadata` dict: the keys the source
reads (`unit`, `days`, `day`); a `none` field models a missing key. -/
structure FrequencyMetadata where
  unit : Option String := none
  days : Option (List Int) := none
  day : Option Int := none
deriving DecidableEq, Repr

/-- `DonetickTask` restricted to the fields the scheduling core reads.
`frequency_type` is a `String` as in `model.py` (default `"once"`); the
source's `None` case is folded into `""`, which the code treats the same. -/
structure DonetickTask where
  id : Int
  name : String
  description : Option String := none
  next_due_date : Option DT := none
  is_active : Bool := true
  assigned_to : Option Int := none
  priority : Int := 0
  frequency_type : String := "once"
  frequency : Int := 0
  frequency_metadata : Option FrequencyMetadata := none
deriving DecidableEq, Repr

/-! ## Recurrence helpers (`todo.py` lines 79-318) -/

/-- `_is_recurrent_task`: the task generates a new occurrence when completed. -/
def _is_recurrent_task (task : DonetickTask) : Bool :=
  !(task.frequency_type == FREQUENCY_ONCE || task.frequency_type == FREQUENCY_NO_REPEAT ||
    task.frequency_type == "")

/-- `_is_frequent_recurrence`: recurs too frequently to show in Upcoming. -/
def _is_frequent_recurrence (task : DonetickTask) : Bool :=
  if task.frequency_type == FREQUENCY_ONCE || task.frequency_type == FREQUENCY_NO_REPEAT then
    false
  else if task.frequency_type == FREQUENCY_DAILY then true
  else if task.frequency_type == FREQUENCY_INTERVAL then
    ((task.frequency_metadata.getD {}).unit.getD "days" == "days") &&
      decide (task.frequency ≤ 4)
  else false

/-- `_get_recurrence_advance_days`: how many days in advance a recurring task
shows in Upcoming (`none` = non-recurring, always show).  Mirrors the source:
a falsy (zero) frequency defaults to 1, kinds other than
daily/weekly/interval return 7, a nonpositive period returns 7, otherwise
`min(period // 2, 7)`. -/
def _get_recurrence_advance_days (task : DonetickTask) : Option Int :=
  if task.frequency_type == FREQUENCY_ONCE || task.frequency_type == FREQUENCY_NO_REPEAT then
    none
  else if !(task.frequency_type == FREQUENCY_DAILY || task.frequency_type == FREQUENCY_WEEKLY ||
      task.frequency_type == FREQUENCY_INTERVAL) then
    some 7
  else
    let recurrence_days : Int :=
      if task.frequency_type == FREQUENCY_DAILY then
        (if task.frequency = 0 then 1 else task.frequency)
      else if task.frequency_type == FREQUENCY_WEEKLY then
        (if task.frequency = 0 then 1 else task.frequency) * 7
      else
        let unit := (task.frequency_metadata.getD {}).unit.getD "days"
        let freq_val : Int := if task.frequency = 0 then 1 else task.frequency
        if unit == "weeks" then freq_val * 7
        else if unit == "months" then freq_val * 30
        else if unit == "years" then freq_val * 365
        else freq_val
    if recurrence_days ≤ 0 then some 7
    else some (min (recurrence_days / 2) 7)

/-- The `while month > 12: month -= 12; year += 1` loop of the monthly
branches, in closed form. -/
def normalizeMonth (y m : Int) : Int × Int :=
  if 12 < m then (y + (m - 1) / 12, (m - 1) % 12 + 1) else (y, m)

/-- The monthly / interval-months branch: add `freq` months keeping the day,
clamped to the target month's length.  `calendar.monthrange` raises for a
month outside 1..12 (reachable when `freq` is negative enough), and
`replace` raises on an invalid result; both become `.error`. -/
def monthlyAdvance (dueLocal : DT) (freq : Int) : Except Unit DT :=
  let y := (normalizeMonth dueLocal.wall.year (dueLocal.wall.month + freq)).1
  let m := (normalizeMonth dueLocal.wall.year (dueLocal.wall.month + freq)).2
  if m < 1 ∨ 12 < m then .error ()
  else pyReplaceDate dueLocal y m (min dueLocal.wall.day (daysInMonth y m))

/-- The yearly / interval-years branch: `due.replace(year=year + freq)`.
No day clamping: Feb 29 to a non-leap year raises (`.error`). -/
def yearlyAdvance (dueLocal : DT) (freq : Int) : Except Unit DT :=
  pyReplaceDate dueLocal (dueLocal.wall.year + freq) dueLocal.wall.month dueLocal.wall.day

/-- The `for _ in range(8)` scan of the days-of-week branch: check the
current candidate's weekday, else advance one day. -/
def scanWeekday (days : List Int) : Nat → DT → Except Unit (Option DT)
  | 0, _ => .ok none
  | n + 1, cur =>
    if days.contains (weekdayOfDT cur) then .ok (some cur)
    else do
      let nxt ← addSecondsE cur 86400
      scanWeekday days n nxt

/-- The day-of-month branch: next calendar month, day set to the target day
clamped to that month's length. -/
def dayOfMonthAdvance (dueLocal : DT) (md : FrequencyMetadata) : Except Unit DT :=
  let target := md.day.getD dueLocal.wall.day
  let y := if 12 < dueLocal.wall.month + 1 then dueLocal.wall.year + 1 else dueLocal.wall.year
  let m := if 12 < dueLocal.wall.month + 1 then 1 else dueLocal.wall.month + 1
  pyReplaceDate dueLocal y m (min target (daysInMonth y m))

/-- `_calculate_next_recurrence_date(task, local_tz)` (todo.py 178-312).
`.ok none` models returning `None`; `.error ()` models an uncaught Python
exception.  `localOff` is the fixed UTC offset of the local timezone in
seconds. -/
def _calculate_next_recurrence_date (task : DonetickTask) (localOff : Int) :
    Except Unit (Option DT) :=
  if !(_is_recurrent_task task) then .ok none
  else match task.next_due_date with
  | none => .ok none
  | some due0 =>
    let dueLocal := (ensureUTC due0).astimezone localOff
    let freq : Int := if task.frequency = 0 then 1 else task.frequency
    let md := task.frequency_metadata.getD {}
    if task.frequency_type == FREQUENCY_DAILY then
      (addSecondsE dueLocal (freq * 86400)).map some
    else if task.frequency_type == FREQUENCY_WEEKLY then
      (addSecondsE dueLocal (freq * 7 * 86400)).map some
    else if task.frequency_type == FREQUENCY_MONTHLY then
      (monthlyAdvance dueLocal freq).map some
    else if task.frequency_type == FREQUENCY_YEARLY then
      (yearlyAdvance dueLocal freq).map some
    else if task.frequency_type == FREQUENCY_INTERVAL then
      let unit := md.unit.getD "days"
      if unit == "days" then (addSecondsE dueLocal (freq * 86400)).map some
      else if unit == "weeks" then (addSecondsE dueLocal (freq * 7 * 86400)).map some
      else if unit == "months" then (monthlyAdvance dueLocal freq).map some
      else if unit == "years" then (yearlyAdvance dueLocal freq).map some
      else (addSecondsE dueLocal (freq * 86400)).map some
    else if task.frequency_type == FREQUENCY_DAYS_OF_WEEK then
      let days := md.days.getD []
      if days.isEmpty then .ok none
      else do
        let start ← addSecondsE dueLocal 86400
        let found ← scanWeekday days 8 start
        match found with
        | some d => pure (some d)
        | none => do
          let f ← addSecondsE dueLocal (7 * 86400)
          pure (some f)
    else if task.frequency_type == FREQUENCY_DAY_OF_MONTH then
      (dayOfMonthAdvance dueLocal md).map some
    else .ok none

/-- `_get_midnight_of_date(dt, local_tz)` (todo.py 315-318). -/
def _get_midnight_of_date (dt : DT) (localOff : Int) : DT :=
  let dl := if dt.tz.isSome then dt.astimezone localOff else { dt with tz := some localOff }
  ⟨{ dl.wall with hour := 0, minute := 0, second := 0 }, dl.tz⟩

/-! ## Auto-completion (`AutoCompletionManager.process_tasks`, todo.py 352-409) -/

/-- The per-task decision of `process_tasks`: `.ok none` when the task is
skipped (inactive, non-recurrent, no due date, not past due, or no next
occurrence), `.ok (some when)` when an auto-completion is scheduled for
`when`, `.error ()` when the recurrence computation raises. -/
def autoCompletionTarget (task : DonetickTask) (localOff : Int) (localNow : DT) :
    Except Unit (Option DT) :=
  if !task.is_active then .ok none
  else if !(_is_recurrent_task task) then .ok none
  else match task.next_due_date with
  | none => .ok none
  | some due0 =>
    let taskDueLocal := (ensureUTC due0).astimezone localOff
    if localNow.instant ≤ taskDueLocal.instant then .ok none
    else do
      let nr ← _calculate_next_recurrence_date task localOff
      match nr with
      | none => .ok none
      | some next =>
        let midnight := _get_midnight_of_date next localOff
        if midnight.instant ≤ localNow.instant then .ok (some (addSecondsP localNow 5))
        else .ok (some midnight)

/-! ## Date-filtered lists (`DonetickDateFilteredTasksList`, todo.py 1529-1926) -/

/-- `_get_local_today_start`: local now with the time zeroed. -/
def localTodayStart (now : DT) : DT :=
  ⟨{ now.wall with hour := 0, minute := 0, second := 0 }, now.tz⟩

/-- `_get_local_today_end`: local now at 23:59:59 (the source's extra
.999999 microseconds are dropped with the sub-second resolution). -/
def localTodayEnd (now : DT) : DT :=
  ⟨{ now.wall with hour := 23, minute := 59, second := 59 }, now.tz⟩

/-- The assignee filter: member lists take only that member's tasks,
unassigned lists only unassigned tasks. -/
def assigneeMatch (member : Option Int) (task : DonetickTask) : Bool :=
  match member with
  | some uid => task.assigned_to == some uid
  | none => task.assigned_to == none

/-- The per-task membership test of `_filter_tasks` (todo.py 1856-1926),
parameterized by the list type, the assignee filter, the configured
upcoming-days window and the current local time. -/
def filterPred (listType : String) (member : Option Int) (upcomingDays : Int)
    (now : DT) (task : DonetickTask) : Bool :=
  let todayStart := localTodayStart now
  let todayEnd := localTodayEnd now
  let upcomingCutoff := addSecondsP todayEnd (upcomingDays * 86400)
  if !task.is_active then false
  else if !(assigneeMatch member task) then false
  else if listType == "no_due_date" then task.next_due_date == none
  else match task.next_due_date with
  | none => false
  | some due0 =>
    let taskDue := ensureUTC due0
    if listType == "past_due" then decide (taskDue.instant < now.instant)
    else if listType == "due_today" then
      decide (todayStart.instant ≤ taskDue.instant ∧ taskDue.instant ≤ todayEnd.instant ∧
        now.instant ≤ taskDue.instant)
    else if listType == "upcoming" then
      if decide (todayEnd.instant < taskDue.instant ∧
          taskDue.instant ≤ upcomingCutoff.instant) then
        if _is_frequent_recurrence task then false
        else match _get_recurrence_advance_days task with
          | none => true
          | some ad => decide (taskDue.instant ≤ (addSecondsP now (ad * 86400)).instant)
      else false
    else false

/-- `_filter_tasks` over a task list. -/
def _filter_tasks (listType : String) (member : Option Int) (upcomingDays : Int)
    (now : DT) (tasks : List DonetickTask) : List DonetickTask :=
  tasks.filter (filterPred listType member upcomingDays now)

/-- The per-task candidate instant of `_calculate_next_transition_time`
(todo.py 1776-1854): the wake-up instant this task contributes, or `none`. -/
def transitionCandidate (listType : String) (member : Option Int) (localOff : Int)
    (now : DT) (task : DonetickTask) : Option DT :=
  let todayStart := localTodayStart now
  let todayEnd := localTodayEnd now
  if !task.is_active then none
  else match task.next_due_date with
  | none => none
  | some due0 =>
    if !(assigneeMatch member task) then none
    else
      let taskDue := ensureUTC due0
      if listType == "past_due" then
        if decide (todayStart.instant ≤ taskDue.instant ∧ taskDue.instant ≤ todayEnd.instant ∧
            now.instant < taskDue.instant) then
          some (addSecondsP taskDue 1)
        else none
      else if listType == "due_today" then
        if decide (todayEnd.instant < taskDue.instant) then
          let taskMidnight := _get_midnight_of_date taskDue localOff
          if decide (now.instant < taskMidnight.instant) then some (addSecondsP taskMidnight 1)
          else none
        else if decide (todayStart.instant ≤ taskDue.instant ∧ taskDue.instant ≤ todayEnd.instant ∧
            now.instant < taskDue.instant) then
          some (addSecondsP taskDue 1)
        else none
      else if listType == "upcoming" then
        if decide (todayEnd.instant < taskDue.instant) then
          let taskMidnight := _get_midnight_of_date taskDue localOff
          if decide (now.instant < taskMidnight.instant) then some (addSecondsP taskMidnight 1)
          else none
        else none
      else none

/-- Python `min` over datetimes: first element of minimal instant. -/
def minByInstant : List DT → Option DT
  | [] => none
  | d :: ds => some (ds.foldl (fun a b => if b.instant < a.instant then b else a) d)

/-- `_calculate_next_transition_time`: earliest candidate, or `none`. -/
def _calculate_next_transition_time (listType : String) (member : Option Int)
    (localOff : Int) (now : DT) (tasks : List DonetickTask) : Option DT :=
  minByInstant (tasks.filterMap (transitionCandidate listType member localOff now))

/-- `_schedule_next_transition` on the pending-timer state: the previous
pending wake-up (if any) is cancelled, then a single new one is registered
exactly when a transition time exists.  The state is the list of live
timers of this classifier. -/
def _schedule_next_transition (calcTime : Option DT) : List DT :=
  match calcTime with
  | none => []
  | some t => [t]

/-! ## Association-list primitives (model Python dicts) -/

/-- Dict lookup. -/
def lookupA {α : Type} (m : List (Int × α)) (k : Int) : Option α :=
  match m.find? (fun p => p.1 == k) with
  | some p => some p.2
  | none => none

/-- Dict assignment `m[k] = v`: overwrite in place or append. -/
def insertA {α : Type} (m : List (Int × α)) (k : Int) (v : α) : List (Int × α) :=
  if m.any (fun p => p.1 == k) then
    m.map (fun p => if p.1 == k then (k, v) else p)
  else m ++ [(k, v)]

/-! ## Notification store and pass (`NotificationStore`,
`_check_and_notify_past_due_tasks`, todo.py 847-943 and 1669-1727) -/

/-- `NotificationStore._data`: task id to the due date the notification was
sent for.  The source stores `due_date.isoformat()` (`""` when absent);
since `isoformat` is injective on datetimes the `Option DT` is stored
directly. -/
def was_notified (store : List (Int × Option DT)) (taskId : Int) (due : Option DT) : Bool :=
  match lookupA store taskId with
  | none => false
  | some stored => stored == due

/-- `NotificationStore.mark_notified`. -/
def mark_notified (store : List (Int × Option DT)) (taskId : Int) (due : Option DT) :
    List (Int × Option DT) :=
  insertA store taskId due

/-- Result of one notification pass: the updated persisted store, the task
ids a (non-reminder) notification was sent for, and the reminders scheduled
(taskId, fireAt). -/
structure NotifyResult where
  store : List (Int × Option DT)
  sent : List Int
  reminders : List (Int × DT)
deriving DecidableEq, Repr

/-- The per-task body of the notification loop: skip when the exact
(taskId, dueAt) pair is already recorded; otherwise send (success modelled
by `sendOk`), and on success record the pair and schedule a 24-hour
reminder. -/
def notifyStep (now : DT) (sendOk : DonetickTask → Bool) (acc : NotifyResult)
    (task : DonetickTask) : NotifyResult :=
  if was_notified acc.store task.id task.next_due_date then acc
  else if sendOk task then
    { store := mark_notified acc.store task.id task.next_due_date,
      sent := acc.sent ++ [task.id],
      reminders := acc.reminders ++ [(task.id, addSecondsP now NOTIFICATION_REMINDER_INTERVAL)] }
  else acc

/-- `_check_and_notify_past_due_tasks`: filter to the past-due bucket, prune
store entries whose task left the bucket, then notify unrecorded
(taskId, dueAt) pairs.  `sendOk` models the Notifier collaborator's success
(for the unassigned variant, that at least one fan-out send succeeded). -/
def _check_and_notify_past_due_tasks (enabled : Bool) (store : List (Int × Option DT))
    (member : Option Int) (upcomingDays : Int) (now : DT) (sendOk : DonetickTask → Bool)
    (tasks : List DonetickTask) : NotifyResult :=
  if !enabled then ⟨store, [], []⟩
  else
    let filtered := _filter_tasks "past_due" member upcomingDays now tasks
    let currentIds := filtered.map (fun t => t.id)
    let pruned := store.filter (fun p => currentIds.contains p.1)
    filtered.foldl (notifyStep now sendOk) ⟨pruned, [], []⟩

/-! ## Reminder chains (`NotificationManager.schedule_reminder` and
`schedule_unassigned_reminder`, todo.py 701-826) -/

/-- The re-check performed when a reminder fires for an assigned task:
resend iff the task is still present in the coordinator data and active.
Returns (resend?, next reminder time).  `coordData` is the coordinator's
id-keyed snapshot (`none` when unavailable). -/
def reminder_callback (coordData : Option (List (Int × DonetickTask))) (taskId : Int)
    (now : DT) : Bool × Option DT :=
  match coordData with
  | none => (false, none)
  | some m =>
    match lookupA m taskId with
    | none => (false, none)
    | some t =>
      if t.is_active then (true, some (addSecondsP now NOTIFICATION_REMINDER_INTERVAL))
      else (false, none)

/-- The unassigned variant: additionally requires the task to still be
unassigned. -/
def unassigned_reminder_callback (coordData : Option (List (Int × DonetickTask)))
    (taskId : Int) (now : DT) : Bool × Option DT :=
  match coordData with
  | none => (false, none)
  | some m =>
    match lookupA m taskId with
    | none => (false, none)
    | some t =>
      if t.is_active && t.assigned_to == none then
        (true, some (addSecondsP now NOTIFICATION_REMINDER_INTERVAL))
      else (false, none)

/-! ## Completion coalescing (`_recently_completed_task_ids` and
`async_update_todo_item`, todo.py 73-76 and 1392-1424) -/

/-- The completion guard: under the shared lock, evict entries older than 30
seconds, then skip if the id is present, else record it and proceed.
Returns (new map, whether the remote CompleteTask call is made).  Times are
wall-clock seconds. -/
def completionGuard (recents : List (Int × Int)) (now : Int) (taskId : Int) :
    List (Int × Int) × Bool :=
  let pruned := recents.filter (fun p => decide (now - p.2 ≤ 30))
  if pruned.any (fun p => p.1 == taskId) then (pruned, false)
  else (pruned ++ [(taskId, now)], true)

/-! ## Snapshot coordinator (`DonetickTaskCoordinator`, todo.py 946-1041) -/

/-- The display-relevant fields hashed by `_hash_task`.  The source hashes
the MD5 of their JSON dump; the field tuple itself is stored here,
idealizing MD5 and `isoformat` as injective. -/
structure TaskDisplayFields where
  id : Int
  name : String
  description : Option String
  next_due_date : Option DT
  is_active : Bool
  assigned_to : Option Int
  priority : Int
  frequency_type : String
deriving DecidableEq, Repr

/-- `_hash_task`. -/
def _hash_task (task : DonetickTask) : TaskDisplayFields :=
  ⟨task.id, task.name, task.description, task.next_due_date, task.is_active,
    task.assigned_to, task.priority, task.frequency_type⟩

/-- The coordinator's mutable state: `_tasks_by_id`, `_task_hashes`,
`_data_version`. -/
structure CoordState where
  tasks_by_id : List (Int × DonetickTask)
  task_hashes : List (Int × TaskDisplayFields)
  data_version : Int
deriving DecidableEq, Repr

/-- `{task.id: task for task in new_tasks}`. -/
def buildMap (tasks : List DonetickTask) : List (Int × DonetickTask) :=
  tasks.foldl (fun m t => insertA m t.id t) []

/-- The hash dict computed over a task map. -/
def hashesOf (m : List (Int × DonetickTask)) : List (Int × TaskDisplayFields) :=
  m.map (fun p => (p.1, _hash_task p.2))

/-- `_async_update_data` (todo.py 986-1023): diff the fetched tasks against
the cached ones; replace the cache and bump `_data_version` only when an id
was added or removed or a common id's hash changed (a missing stored hash
compares as the `""` default and counts as changed). -/
def _async_update_data (st : CoordState) (newTasks : List DonetickTask) : CoordState :=
  let newMap := buildMap newTasks
  let newIds := newMap.map Prod.fst
  let oldIds := st.tasks_by_id.map Prod.fst
  let anyAdded := newIds.any (fun i => !(oldIds.contains i))
  let anyRemoved := oldIds.any (fun i => !(newIds.contains i))
  let anyUpdated := newMap.any (fun p =>
    oldIds.contains p.1 && !(lookupA st.task_hashes p.1 == some (_hash_task p.2)))
  if anyAdded || anyRemoved || anyUpdated then
    ⟨newMap, hashesOf newMap, st.data_version + 1⟩
  else st

/-- The coordinator invariant: the stored hashes are the hashes of the
stored tasks.  Holds initially (both empty) and is preserved by
`_async_update_data`. -/
def CoordWf (st : CoordState) : Prop :=
  st.task_hashes = hashesOf st.tasks_by_id

/-- The claim's notion of change between two polls: the id set changed, or
some common id's display-relevant fields changed. -/
def ChangedSpec (st : CoordState) (ts : List DonetickTask) : Prop :=
  ((buildMap ts).map Prod.fst).toFinset ≠ (st.tasks_by_id.map Prod.fst).toFinset ∨
    ∃ i tNew tOld, lookupA (buildMap ts) i = some tNew ∧
      lookupA st.tasks_by_id i = some tOld ∧ _hash_task tNew ≠ _hash_task tOld

/-- Year-month index, for stating "advanced by exactly `freq` months". -/
def monthIndex (w : WallClock) : Int := 12 * w.year + w.month

/-! ## Spec-side definitions for the Upcoming advance-window claim -/

/-- The claim's `periodDays`, word for word: interval for day units,
interval×7 for weeks, interval×30 for months, interval×365 for years, with
the raw interval (no zero default).  Kinds the claim does not assign a
period (`none`) fall back to the 7-day window, as the code does, so that
any divergence is localized to the claim's own formula. -/
def claimPeriodDays (task : DonetickTask) : Option Int :=
  if task.frequency_type == FREQUENCY_DAILY then some task.frequency
  else if task.frequency_type == FREQUENCY_WEEKLY then some (task.frequency * 7)
  else if task.frequency_type == FREQUENCY_MONTHLY then some (task.frequency * 30)
  else if task.frequency_type == FREQUENCY_YEARLY then some (task.frequency * 365)
  else if task.frequency_type == FREQUENCY_INTERVAL then
    let unit := (task.frequency_metadata.getD {}).unit.getD "days"
    if unit == "weeks" then some (task.frequency * 7)
    else if unit == "months" then some (task.frequency * 30)
    else if unit == "years" then some (task.frequency * 365)
    else some task.frequency
  else none

/-- The Upcoming membership rule exactly as the claim states it: in the
window; excluded when daily or custom day-interval ≤ 4; non-recurring (kind
once / no-repeat) always included; otherwise included iff
`dueAt ≤ now + min(floor(periodDays / 2), 7) days`. -/
def upcomingClaimRule (member : Option Int) (upcomingDays : Int) (now : DT)
    (task : DonetickTask) : Bool :=
  let todayEnd := localTodayEnd now
  let upcomingCutoff := addSecondsP todayEnd (upcomingDays * 86400)
  if !task.is_active then false
  else if !(assigneeMatch member task) then false
  else match task.next_due_date with
  | none => false
  | some due0 =>
    let taskDue := ensureUTC due0
    if !(decide (todayEnd.instant < taskDue.instant ∧ taskDue.instant ≤ upcomingCutoff.instant))
    then false
    else if task.frequency_type == FREQUENCY_DAILY then false
    else if task.frequency_type == FREQUENCY_INTERVAL &&
        ((task.frequency_metadata.getD {}).unit.getD "days" == "days") &&
        decide (task.frequency ≤ 4) then false
    else if task.frequency_type == FREQUENCY_ONCE ||
        task.frequency_type == FREQUENCY_NO_REPEAT then true
    else
      let advanceDays : Int :=
        match claimPeriodDays task with
        | none => 7
        | some pd => min (pd / 2) 7
      decide (taskDue.instant ≤ (addSecondsP now (advanceDays * 86400)).instant)

/-- The claim's `periodDays` amended to what the code computes: a zero
interval defaults to 1 (Python falsiness), and only daily / weekly /
interval kinds carry a period. -/
def amendedPeriodDays (task : DonetickTask) : Option Int :=
  let f : Int := if task.frequency = 0 then 1 else task.frequency
  if task.frequency_type == FREQUENCY_DAILY then some f
  else if task.frequency_type == FREQUENCY_WEEKLY then some (f * 7)
  else if task.frequency_type == FREQUENCY_INTERVAL then
    let unit := (task.frequency_metadata.getD {}).unit.getD "days"
    if unit == "weeks" then some (f * 7)
    else if unit == "months" then some (f * 30)
    else if unit == "years" then some (f * 365)
    else some f
  else none

/-- The amended Upcoming rule: as the claim, except that a zero interval is
treated as 1, a nonpositive period falls back to the 7-day window, and
recurring kinds without a day period (monthly, yearly, days-of-week,
day-of-month, unknown) use the 7-day window. -/
def upcomingAmendedRule (member : Option Int) (upcomingDays : Int) (now : DT)
    (task : DonetickTask) : Bool :=
  let todayEnd := localTodayEnd now
  let upcomingCutoff := addSecondsP todayEnd (upcomingDays * 86400)
  if !task.is_active then false
  else if !(assigneeMatch member task) then false
  else match task.next_due_date with
  | none => false
  | some due0 =>
    let taskDue := ensureUTC due0
    if !(decide (todayEnd.instant < taskDue.instant ∧ taskDue.instant ≤ upcomingCutoff.instant))
    then false
    else if task.frequency_type == FREQUENCY_DAILY then false
    else if task.frequency_type == FREQUENCY_INTERVAL &&
        ((task.frequency_metadata.getD {}).unit.getD "days" == "days") &&
        decide (task.frequency ≤ 4) then false
    else if task.frequency_type == FREQUENCY_ONCE ||
        task.frequency_type == FREQUENCY_NO_REPEAT then true
    else
      let advanceDays : Int :=
        match amendedPeriodDays task with
        | none => 7
        | some pd => if pd ≤ 0 then 7 else min (pd / 2) 7
      decide (taskDue.instant ≤ (addSecondsP now (advanceDays * 86400)).instant)

/-! ## Concrete fixtures for witnesses and counterexamples -/

/-- Build a datetime from components. -/
def mkDT (y m d h mi s : Int) (tz : Option Int) : DT := ⟨⟨y, m, d, h, mi, s⟩, tz⟩

/-- Weekly task due Monday 2026-01-05T17:00Z. -/
def exWeeklyTask : DonetickTask :=
  { id := 1, name := "w", frequency_type := "weekly", frequency := 1,
    next_due_date := some (mkDT 2026 1 5 17 0 0 (some 0)) }

/-- Every-3-days interval task due 2026-01-08T09:00Z. -/
def exInterval3Task : DonetickTask :=
  { id := 2, name := "i", frequency_type := "interval", frequency := 3,
    frequency_metadata := some { unit := some "days" },
    next_due_date := some (mkDT 2026 1 8 9 0 0 (some 0)) }

/-- Every-2-weeks interval task due 2026-01-05T17:00Z. -/
def exIntervalWeeksTask : DonetickTask :=
  { id := 10, name := "iw", frequency_type := "interval", frequency := 2,
    frequency_metadata := some { unit := some "weeks" },
    next_due_date := some (mkDT 2026 1 5 17 0 0 (some 0)) }

/-- Interval task with unit `years` due 2024-02-29T10:00Z: the year-interval
branch shares the yearly `replace`, so 2025-02-29 raises. -/
def exIntervalYearsFeb29Task : DonetickTask :=
  { id := 11, name := "iy", frequency_type := "interval", frequency := 1,
    frequency_metadata := some { unit := some "years" },
    next_due_date := some (mkDT 2024 2 29 10 0 0 (some 0)) }

/-- Monthly task due 2026-01-31T10:00Z (2026 is not a leap year). -/
def exMonthly31Task : DonetickTask :=
  { id := 3, name := "m", frequency_type := "monthly", frequency := 1,
    next_due_date := some (mkDT 2026 1 31 10 0 0 (some 0)) }

/-- Monthly task due 2026-01-01T10:00Z. -/
def exMonthly1Task : DonetickTask :=
  { id := 4, name := "m1", frequency_type := "monthly", frequency := 1,
    next_due_date := some (mkDT 2026 1 1 10 0 0 (some 0)) }

/-- Yearly task due 2024-02-29T10:00Z: 2025-02-29 does not exist. -/
def exYearlyFeb29Task : DonetickTask :=
  { id := 5, name := "y", frequency_type := "yearly", frequency := 1,
    next_due_date := some (mkDT 2024 2 29 10 0 0 (some 0)) }

/-- Yearly task due 2024-02-29T12:00Z (separate fixture). -/
def exYearlyFeb29NoonTask : DonetickTask :=
  { id := 6, name := "y2", frequency_type := "yearly", frequency := 1,
    next_due_date := some (mkDT 2024 2 29 12 0 0 (some 0)) }

/-- Daily task due 2026-01-10T08:00Z. -/
def exDailyTask : DonetickTask :=
  { id := 7, name := "d", frequency_type := "daily", frequency := 1,
    next_due_date := some (mkDT 2026 1 10 8 0 0 (some 0)) }

/-- The observation instant 2026-01-12T22:00 (UTC as the local zone). -/
def exAutoNow : DT := mkDT 2026 1 12 22 0 0 (some 0)

/-- Weekly task with interval 0, due 2026-01-03T10:00Z. -/
def exWeekly0Task : DonetickTask :=
  { id := 8, name := "w0", frequency_type := "weekly", frequency := 0,
    next_due_date := some (mkDT 2026 1 3 10 0 0 (some 0)) }

/-- Local now 2026-01-01T12:00 for the Upcoming counterexample. -/
def exUpcomingNow : DT := mkDT 2026 1 1 12 0 0 (some 0)

/-- One-time task due tomorrow 2026-01-02T10:00Z. -/
def exTomorrowTask : DonetickTask :=
  { id := 9, name := "t", next_due_date := some (mkDT 2026 1 2 10 0 0 (some 0)) }

/-- Local now 2026-01-01T12:00 for the transition counterexample. -/
def exTransitionNow : DT := mkDT 2026 1 1 12 0 0 (some 0)

/-- A later local now, 2026-01-02T11:00, after the task's due instant. -/
def exTransitionLater : DT := mkDT 2026 1 2 11 0 0 (some 0)

/-- An active task due far in the future (2026-06-01T10:00Z). -/
def exFutureTask : DonetickTask :=
  { id := 1, name := "f", next_due_date := some (mkDT 2026 6 1 10 0 0 (some 0)) }

/-- Reminder fire instant 2026-01-01T12:00, long before `exFutureTask` is due. -/
def exReminderNow : DT := mkDT 2026 1 1 12 0 0 (some 0)

end Donetick

namespace Donetick

/-- Century extraction inside one 400-year era: the year-of-era's century
index equals the raw 36524-day century count corrected at the era's last day. -/
lemma yoe_div_100 (doe : Int) (h1 : 0 ≤ doe) (h2 : doe ≤ 146096) :
    ((doe - doe / 1460 + doe / 36524 - doe / 146096) / 365) / 100 =
      doe / 36524 - doe / 146096 := by
  have hc : doe / 36524 = 0 ∨ doe / 36524 = 1 ∨ doe / 36524 = 2 ∨
      doe / 36524 = 3 ∨ doe / 36524 = 4 := by omega
  have hd : doe / 146096 = 0 ∨ doe / 146096 = 1 := by omega
  rcases hc with h | h | h | h | h <;> rcases hd with h9 | h9 <;> omega

/-- Four-year-cycle extraction inside one 400-year era. -/
lemma yoe_div_4 (doe : Int) (h1 : 0 ≤ doe) (h2 : doe ≤ 146096) :
    ((doe - doe / 1460 + doe / 36524 - doe / 146096) / 365) / 4 =
      (doe + doe / 36524 - doe / 146096) / 1461 := by
  have hc : doe / 36524 = 0 ∨ doe / 36524 = 1 ∨ doe / 36524 = 2 ∨
      doe / 36524 = 3 ∨ doe / 36524 = 4 := by omega
  have hd : doe / 146096 = 0 ∨ doe / 146096 = 1 := by omega
  rcases hc with h | h | h | h | h <;> rcases hd with h9 | h9 <;> omega

/-- The year-of-era and day-of-year produced by `civilFromDays` are in range. -/
lemma yoe_doy_bounds (doe : Int) (h1 : 0 ≤ doe) (h2 : doe ≤ 146096) :
    0 ≤ (doe - doe / 1460 + doe / 36524 - doe / 146096) / 365 ∧
    (doe - doe / 1460 + doe / 36524 - doe / 146096) / 365 ≤ 399 ∧
    0 ≤ doe - (365 * ((doe - doe / 1460 + doe / 36524 - doe / 146096) / 365) +
      ((doe - doe / 1460 + doe / 36524 - doe / 146096) / 365) / 4 -
      ((doe - doe / 1460 + doe / 36524 - doe / 146096) / 365) / 100) ∧
    doe - (365 * ((doe - doe / 1460 + doe / 36524 - doe / 146096) / 365) +
      ((doe - doe / 1460 + doe / 36524 - doe / 146096) / 365) / 4 -
      ((doe - doe / 1460 + doe / 36524 - doe / 146096) / 365) / 100) ≤ 365 := by
  have hI1 := yoe_div_100 doe h1 h2
  have hI2 := yoe_div_4 doe h1 h2
  omega

/-- `daysFromCivil` is a left inverse of `civilFromDays`. -/
theorem daysFromCivil_civilFromDays (z : Int) :
    daysFromCivil (civilFromDays z).1 (civilFromDays z).2.1 (civilFromDays z).2.2 = z := by
  have h1 : 0 ≤ z + 719468 - (z + 719468) / 146097 * 146097 := by omega
  have h2 : z + 719468 - (z + 719468) / 146097 * 146097 ≤ 146096 := by omega
  have hB := yoe_doy_bounds _ h1 h2
  simp only [civilFromDays, daysFromCivil]
  split_ifs with ha hb hc
  all_goals
    set era := (z + 719468) / 146097 with hera
    set doe := z + 719468 - era * 146097 with hdoe
    set yoe := (doe - doe / 1460 + doe / 36524 - doe / 146096) / 365 with hyoe
    set doy := doe - (365 * yoe + yoe / 4 - yoe / 100) with hdoy
    set mp := (5 * doy + 2) / 153 with hmp
  all_goals first
    | omega
    | (rw [show yoe + era * 400 + 1 - 1 = yoe + era * 400 from by ring,
           show (yoe + era * 400) / 400 = era from by omega,
           show yoe + era * 400 - era * 400 = yoe from by ring,
           show mp + -9 + 9 = mp from by ring]
       omega)
    | (rw [show yoe + era * 400 + 0 - 0 = yoe + era * 400 from by ring,
           show (yoe + era * 400) / 400 = era from by omega,
           show yoe + era * 400 - era * 400 = yoe from by ring,
           show mp + 3 + -3 = mp from by ring]
       omega)

/-- `WallClock.toSecs` inverts `WallClock.ofSecs`: wall-clock arithmetic done
through second counts is exact. -/
theorem toSecs_ofSecs (s : Int) : (WallClock.ofSecs s).toSecs = s := by
  have h := daysFromCivil_civilFromDays (s / 86400)
  simp only [WallClock.ofSecs, WallClock.toSecs]
  omega

/-- Converting a timezone preserves the instant. -/
theorem instant_astimezone (dt : DT) (off : Int) :
    (dt.astimezone off).instant = dt.instant := by
  simp [DT.astimezone, DT.instant, toSecs_ofSecs]

/-- Unchecked second addition shifts the instant by exactly that amount. -/
theorem instant_addSecondsP (dt : DT) (s : Int) :
    (addSecondsP dt s).instant = dt.instant + s := by
  simp [addSecondsP, DT.instant, toSecs_ofSecs]
  ring

/-- Checked second addition shifts the instant by exactly that amount when it
succeeds. -/
theorem instant_addSecondsE (dt r : DT) (s : Int) (h : addSecondsE dt s = .ok r) :
    r.instant = dt.instant + s ∧ r.tz = dt.tz := by
  simp only [addSecondsE] at h
  split at h
  · exact absurd h (by simp)
  · cases h
    constructor
    · simp [DT.instant, toSecs_ofSecs]
      ring
    · rfl

end Donetick

namespace Donetick

/-! ## Helper lemmas about the embedded primitives -/

/-- Unwrap `Except.map some`. -/
lemma map_some_ok {e : Except Unit DT} {r : DT} (h : Except.map some e = .ok (some r)) :
    e = .ok r := by
  cases e with
  | error v => simp [Except.map] at h
  | ok v =>
    simp [Except.map] at h
    simp [h]

/-- `normalizeMonth` preserves the year-month index. -/
lemma normalizeMonth_index (y m : Int) :
    12 * (normalizeMonth y m).1 + (normalizeMonth y m).2 = 12 * y + m := by
  unfold normalizeMonth
  split <;> simp <;> omega

/-- Fields of a successful `pyReplaceDate`. -/
lemma pyReplaceDate_ok {dl r : DT} {y m d : Int} (h : pyReplaceDate dl y m d = .ok r) :
    r = ⟨⟨y, m, d, dl.wall.hour, dl.wall.minute, dl.wall.second⟩, dl.tz⟩ := by
  unfold pyReplaceDate at h
  split at h
  · cases h
    rfl
  · exact absurd h (by simp)

/-- A successful monthly advance moves the year-month index by exactly
`freq`, clamps the day to the target month, and keeps the time of day. -/
lemma monthlyAdvance_ok {dl r : DT} {freq : Int} (h : monthlyAdvance dl freq = .ok r) :
    monthIndex r.wall = monthIndex dl.wall + freq ∧
    r.wall.day = min dl.wall.day (daysInMonth r.wall.year r.wall.month) ∧
    r.wall.hour = dl.wall.hour ∧ r.wall.minute = dl.wall.minute ∧
    r.wall.second = dl.wall.second ∧ r.tz = dl.tz := by
  simp only [monthlyAdvance] at h
  split at h
  · exact absurd h (by simp)
  · have hidx := normalizeMonth_index dl.wall.year (dl.wall.month + freq)
    have hr := pyReplaceDate_ok h
    subst hr
    refine ⟨?_, rfl, rfl, rfl, rfl, rfl⟩
    simp only [monthIndex]
    omega

/-- A successful yearly advance replaces the year and keeps everything else
(no day clamping). -/
lemma yearlyAdvance_ok {dl r : DT} {freq : Int} (h : yearlyAdvance dl freq = .ok r) :
    r = ⟨{ dl.wall with year := dl.wall.year + freq }, dl.tz⟩ := by
  unfold yearlyAdvance at h
  exact pyReplaceDate_ok h

end Donetick
namespace Donetick

/-- Fixture: naive daily task due 2026-01-10T08:00 with no timezone. -/
def exNaiveDue : DT := mkDT 2026 1 10 8 0 0 none

def exNaiveTask : DonetickTask := { exDailyTask with next_due_date := some exNaiveDue }

/-- Claim C9: the recurrence computation is claimed never to fail, but for a
yearly task due on Feb 29 the source calls `due.replace(year=year+freq)`,
which raises `ValueError` because the target year has no Feb 29; the embedded
function returns `.error ()` rather than `.ok` on that input. -/
theorem recurrence_raises_on_feb29_yearly :
    _calculate_next_recurrence_date exYearlyFeb29Task 0 = .error () := rfl

/-- Claim C2 counterexample: the claimed month-end clamping does not extend to
the yearly branch; a yearly task due 2024-02-29 does not yield a clamped
2025-02-28 (or any date): the computation errors out. -/
theorem recurrence_yearly_feb29_no_clamp :
    _calculate_next_recurrence_date exYearlyFeb29NoonTask 0 = .error () := rfl

/-- Claim C2 amended: for every recurring task with a due date,
`_calculate_next_recurrence_date` advances the due date by exactly one period
in the frequency kind's unit whenever it succeeds - daily by `freq` days (1 if
zero), weekly by 7x that, day-interval by `freq` days, week-interval by
`freq` weeks, monthly and month-interval by `freq` months with the day
clamped to the target month's length, yearly and year-interval by `freq`
years only when the same month/day exists (no clamping: a year-interval task
due Feb 29 errors just like the yearly kind, shown concretely) - and the
stated weekly, every-3-days, every-2-weeks and monthly examples hold. -/
theorem recurrence_advances_one_period :
    (∀ (t : DonetickTask) (off : Int) (d r : DT),
      t.frequency_type = FREQUENCY_DAILY → t.next_due_date = some d →
      _calculate_next_recurrence_date t off = .ok (some r) →
      r.instant = ((ensureUTC d).astimezone off).instant +
        (if t.frequency = 0 then 1 else t.frequency) * 86400) ∧
    (∀ (t : DonetickTask) (off : Int) (d r : DT),
      t.frequency_type = FREQUENCY_WEEKLY → t.next_due_date = some d →
      _calculate_next_recurrence_date t off = .ok (some r) →
      r.instant = ((ensureUTC d).astimezone off).instant +
        (if t.frequency = 0 then 1 else t.frequency) * 7 * 86400) ∧
    (∀ (t : DonetickTask) (off : Int) (d r : DT),
      t.frequency_type = FREQUENCY_INTERVAL →
      (t.frequency_metadata.getD {}).unit.getD "days" = "days" →
      t.next_due_date = some d →
      _calculate_next_recurrence_date t off = .ok (some r) →
      r.instant = ((ensureUTC d).astimezone off).instant +
        (if t.frequency = 0 then 1 else t.frequency) * 86400) ∧
    (∀ (t : DonetickTask) (off : Int) (d r : DT),
      t.frequency_type = FREQUENCY_INTERVAL →
      (t.frequency_metadata.getD {}).unit.getD "days" = "weeks" →
      t.next_due_date = some d →
      _calculate_next_recurrence_date t off = .ok (some r) →
      r.instant = ((ensureUTC d).astimezone off).instant +
        (if t.frequency = 0 then 1 else t.frequency) * 7 * 86400) ∧
    (∀ (t : DonetickTask) (off : Int) (d r : DT),
      (t.frequency_type = FREQUENCY_MONTHLY ∨
        (t.frequency_type = FREQUENCY_INTERVAL ∧
          (t.frequency_metadata.getD {}).unit.getD "days" = "months")) →
      t.next_due_date = some d →
      _calculate_next_recurrence_date t off = .ok (some r) →
      monthIndex r.wall = monthIndex ((ensureUTC d).astimezone off).wall +
        (if t.frequency = 0 then 1 else t.frequency) ∧
      r.wall.day = min ((ensureUTC d).astimezone off).wall.day
        (daysInMonth r.wall.year r.wall.month) ∧
      r.wall.hour = ((ensureUTC d).astimezone off).wall.hour ∧
      r.wall.minute = ((ensureUTC d).astimezone off).wall.minute ∧
      r.wall.second = ((ensureUTC d).astimezone off).wall.second) ∧
    (∀ (t : DonetickTask) (off : Int) (d r : DT),
      t.frequency_type = FREQUENCY_YEARLY → t.next_due_date = some d →
      _calculate_next_recurrence_date t off = .ok (some r) →
      r.wall = { ((ensureUTC d).astimezone off).wall with
        year := ((ensureUTC d).astimezone off).wall.year +
          (if t.frequency = 0 then 1 else t.frequency) }) ∧
    (∀ (t : DonetickTask) (off : Int) (d r : DT),
      t.frequency_type = FREQUENCY_INTERVAL →
      (t.frequency_metadata.getD {}).unit.getD "days" = "years" →
      t.next_due_date = some d →
      _calculate_next_recurrence_date t off = .ok (some r) →
      r.wall = { ((ensureUTC d).astimezone off).wall with
        year := ((ensureUTC d).astimezone off).wall.year +
          (if t.frequency = 0 then 1 else t.frequency) }) ∧
    _calculate_next_recurrence_date exWeeklyTask 0 = .ok (some (mkDT 2026 1 12 17 0 0 (some 0))) ∧
    _calculate_next_recurrence_date exInterval3Task 0 = .ok (some (mkDT 2026 1 11 9 0 0 (some 0))) ∧
    _calculate_next_recurrence_date exIntervalWeeksTask 0 = .ok (some (mkDT 2026 1 19 17 0 0 (some 0))) ∧
    _calculate_next_recurrence_date exIntervalYearsFeb29Task 0 = .error () ∧
    _calculate_next_recurrence_date exMonthly31Task 0 = .ok (some (mkDT 2026 2 28 10 0 0 (some 0))) ∧
    _calculate_next_recurrence_date exMonthly1Task 0 = .ok (some (mkDT 2026 2 1 10 0 0 (some 0))) := by
  refine ⟨?_, ?_, ?_, ?_, ?_, ?_, ?_, rfl, rfl, rfl, rfl, rfl, rfl⟩
  · intro t off d r hft hdue hok
    simp [_calculate_next_recurrence_date, _is_recurrent_task, hft, hdue,
      FREQUENCY_DAILY, FREQUENCY_ONCE, FREQUENCY_NO_REPEAT] at hok
    have h2 := map_some_ok hok
    have h3 := (instant_addSecondsE _ _ _ h2).1
    omega
  · intro t off d r hft hdue hok
    simp [_calculate_next_recurrence_date, _is_recurrent_task, hft, hdue,
      FREQUENCY_DAILY, FREQUENCY_WEEKLY, FREQUENCY_ONCE, FREQUENCY_NO_REPEAT] at hok
    have h2 := map_some_ok hok
    have h3 := (instant_addSecondsE _ _ _ h2).1
    omega
  · intro t off d r hft hunit hdue hok
    simp [_calculate_next_recurrence_date, _is_recurrent_task, hft, hunit, hdue,
      FREQUENCY_DAILY, FREQUENCY_WEEKLY, FREQUENCY_MONTHLY, FREQUENCY_YEARLY,
      FREQUENCY_INTERVAL, FREQUENCY_ONCE, FREQUENCY_NO_REPEAT] at hok
    have h2 := map_some_ok hok
    have h3 := (instant_addSecondsE _ _ _ h2).1
    omega
  · intro t off d r hft hunit hdue hok
    simp [_calculate_next_recurrence_date, _is_recurrent_task, hft, hunit, hdue,
      FREQUENCY_DAILY, FREQUENCY_WEEKLY, FREQUENCY_MONTHLY, FREQUENCY_YEARLY,
      FREQUENCY_INTERVAL, FREQUENCY_ONCE, FREQUENCY_NO_REPEAT] at hok
    have h2 := map_some_ok hok
    have h3 := (instant_addSecondsE _ _ _ h2).1
    omega
  · intro t off d r hft hdue hok
    rcases hft with hft | ⟨hft, hunit⟩
    · simp [_calculate_next_recurrence_date, _is_recurrent_task, hft, hdue,
        FREQUENCY_DAILY, FREQUENCY_WEEKLY, FREQUENCY_MONTHLY,
        FREQUENCY_ONCE, FREQUENCY_NO_REPEAT] at hok
      have h2 := monthlyAdvance_ok (map_some_ok hok)
      exact ⟨h2.1, h2.2.1, h2.2.2.1, h2.2.2.2.1, h2.2.2.2.2.1⟩
    · simp [_calculate_next_recurrence_date, _is_recurrent_task, hft, hunit, hdue,
        FREQUENCY_DAILY, FREQUENCY_WEEKLY, FREQUENCY_MONTHLY, FREQUENCY_YEARLY,
        FREQUENCY_INTERVAL, FREQUENCY_ONCE, FREQUENCY_NO_REPEAT] at hok
      have h2 := monthlyAdvance_ok (map_some_ok hok)
      exact ⟨h2.1, h2.2.1, h2.2.2.1, h2.2.2.2.1, h2.2.2.2.2.1⟩
  · intro t off d r hft hdue hok
    simp [_calculate_next_recurrence_date, _is_recurrent_task, hft, hdue,
      FREQUENCY_DAILY, FREQUENCY_WEEKLY, FREQUENCY_MONTHLY, FREQUENCY_YEARLY,
      FREQUENCY_ONCE, FREQUENCY_NO_REPEAT] at hok
    have h2 := yearlyAdvance_ok (map_some_ok hok)
    rw [h2]
  · intro t off d r hft hunit hdue hok
    simp [_calculate_next_recurrence_date, _is_recurrent_task, hft, hunit, hdue,
      FREQUENCY_DAILY, FREQUENCY_WEEKLY, FREQUENCY_MONTHLY, FREQUENCY_YEARLY,
      FREQUENCY_INTERVAL, FREQUENCY_ONCE, FREQUENCY_NO_REPEAT] at hok
    have h2 := yearlyAdvance_ok (map_some_ok hok)
    rw [h2]

/-- Claim C2 witness: the daily conjunct at the concrete daily task and the
week-interval conjunct at the concrete every-2-weeks task, with every
hypothesis discharged by evaluation. -/
theorem recurrence_advances_one_period_witness :
    ((mkDT 2026 1 11 8 0 0 (some 0)).instant =
      ((ensureUTC (mkDT 2026 1 10 8 0 0 (some 0))).astimezone 0).instant +
        (if exDailyTask.frequency = 0 then 1 else exDailyTask.frequency) * 86400) ∧
    ((mkDT 2026 1 19 17 0 0 (some 0)).instant =
      ((ensureUTC (mkDT 2026 1 5 17 0 0 (some 0))).astimezone 0).instant +
        (if exIntervalWeeksTask.frequency = 0 then 1 else exIntervalWeeksTask.frequency) *
          7 * 86400) :=
  ⟨recurrence_advances_one_period.1 exDailyTask 0 (mkDT 2026 1 10 8 0 0 (some 0))
    (mkDT 2026 1 11 8 0 0 (some 0)) rfl rfl rfl,
   recurrence_advances_one_period.2.2.2.1 exIntervalWeeksTask 0
    (mkDT 2026 1 5 17 0 0 (some 0)) (mkDT 2026 1 19 17 0 0 (some 0)) rfl rfl rfl rfl⟩

/-- Claim C10: a due datetime carrying no timezone is interpreted as UTC by
every consumer - the bucket filter, the auto-completion decision, the
transition candidate, and the recurrence calculator treat a naive due date
exactly like the same wall-clock reading explicitly tagged UTC. -/
theorem naive_due_interpreted_as_utc :
    ∀ (t : DonetickTask) (d : DT), t.next_due_date = some d → d.tz = none →
    (∀ (listType : String) (member : Option Int) (ud : Int) (now : DT),
      filterPred listType member ud now t =
        filterPred listType member ud now
          { t with next_due_date := some { d with tz := some 0 } }) ∧
    (∀ (off : Int) (now : DT),
      autoCompletionTarget t off now =
        autoCompletionTarget { t with next_due_date := some { d with tz := some 0 } } off now) ∧
    (∀ (listType : String) (member : Option Int) (off : Int) (now : DT),
      transitionCandidate listType member off now t =
        transitionCandidate listType member off now
          { t with next_due_date := some { d with tz := some 0 } }) ∧
    (∀ (off : Int),
      _calculate_next_recurrence_date t off =
        _calculate_next_recurrence_date
          { t with next_due_date := some { d with tz := some 0 } } off) := by
  intro t d ht htz
  have key : ensureUTC d = { d with tz := some 0 } := by simp [ensureUTC, htz]
  have key2 : ensureUTC { d with tz := some 0 } = { d with tz := some 0 } := by
    simp [ensureUTC]
  have hcalc : ∀ off : Int, _calculate_next_recurrence_date t off =
      _calculate_next_recurrence_date
        { t with next_due_date := some { d with tz := some 0 } } off := by
    intro off
    simp only [_calculate_next_recurrence_date, ht, key, key2]
    rfl
  refine ⟨?_, ?_, ?_, hcalc⟩
  · intro listType member ud now
    simp only [filterPred, ht, key, key2]
    rfl
  · intro off now
    simp only [autoCompletionTarget, ht, key, key2, hcalc]
    rfl
  · intro listType member off now
    simp only [transitionCandidate, ht, key, key2]
    rfl

/-- Claim C10 witness: a concrete naive daily task classifies identically to
its UTC-tagged twin in all four consumers. -/
theorem naive_due_interpreted_as_utc_witness :
    filterPred "past_due" none 7 exAutoNow exNaiveTask =
      filterPred "past_due" none 7 exAutoNow
        { exNaiveTask with next_due_date := some { exNaiveDue with tz := some 0 } } :=
  (naive_due_interpreted_as_utc exNaiveTask exNaiveDue rfl rfl).1 "past_due" none 7 exAutoNow

end Donetick
namespace Donetick

/-- `do`-bind of a successful `Except` reduces to the continuation. -/
lemma except_bind_ok {α β : Type} (a : α) (f : α → Except Unit β) :
    (Except.ok a : Except Unit α) >>= f = f a := rfl

/-- Claim C4: for an active, recurring, past-due task the auto-completion
decision targets the local midnight of the computed next occurrence, except
that a midnight not after now is replaced by now plus five seconds; in the
spec's example (daily task due 2026-01-10T08:00 seen at 2026-01-12T22:00) the
next occurrence is 2026-01-11T08:00 and the target is now+5s. -/
theorem auto_completion_targets_next_occurrence_midnight :
    (∀ (t : DonetickTask) (off : Int) (now : DT) (d nr : DT),
      t.is_active = true → _is_recurrent_task t = true → t.next_due_date = some d →
      ((ensureUTC d).astimezone off).instant < now.instant →
      _calculate_next_recurrence_date t off = .ok (some nr) →
      autoCompletionTarget t off now = .ok (some (
        if (_get_midnight_of_date nr off).instant ≤ now.instant then addSecondsP now 5
        else _get_midnight_of_date nr off))) ∧
    _calculate_next_recurrence_date exDailyTask 0 = .ok (some (mkDT 2026 1 11 8 0 0 (some 0))) ∧
    (_get_midnight_of_date (mkDT 2026 1 11 8 0 0 (some 0)) 0).instant ≤ exAutoNow.instant ∧
    autoCompletionTarget exDailyTask 0 exAutoNow = .ok (some (addSecondsP exAutoNow 5)) ∧
    addSecondsP exAutoNow 5 = mkDT 2026 1 12 22 0 5 (some 0) := by
  refine ⟨?_, rfl, by decide, rfl, rfl⟩
  intro t off now d nr hact hrec hdue hpast hok
  have hnotle : ¬ (now.instant ≤ ((ensureUTC d).astimezone off).instant) := by omega
  simp [autoCompletionTarget, hact, hrec, hdue, hok, hnotle, Except.bind, except_bind_ok]
  split <;> rfl

/-- Claim C4 witness: the daily example task evaluates to the now+5s target. -/
theorem auto_completion_targets_next_occurrence_midnight_witness :
    autoCompletionTarget exDailyTask 0 exAutoNow = .ok (some (
      if (_get_midnight_of_date (mkDT 2026 1 11 8 0 0 (some 0)) 0).instant ≤ exAutoNow.instant
      then addSecondsP exAutoNow 5
      else _get_midnight_of_date (mkDT 2026 1 11 8 0 0 (some 0)) 0)) :=
  auto_completion_targets_next_occurrence_midnight.1 exDailyTask 0 exAutoNow
    (mkDT 2026 1 10 8 0 0 (some 0)) (mkDT 2026 1 11 8 0 0 (some 0))
    rfl rfl rfl (by decide) rfl

/-- Claim C8: two completion requests for the same task id within 30 seconds
are coalesced - the first call performs the remote completion and records the
id, and the second finds the id still in the recently-completed map (evicted
only after 30 seconds) and makes no remote call. -/
theorem completion_coalescing_at_most_one_call :
    ∀ (recents : List (Int × Int)) (t1 t2 taskId : Int),
      t1 ≤ t2 → t2 - t1 ≤ 30 →
      ¬((completionGuard recents t1 taskId).2 = true ∧
        (completionGuard (completionGuard recents t1 taskId).1 t2 taskId).2 = true) := by
  intro recents t1 t2 taskId h1 h2
  rintro ⟨hc1, hc2⟩
  by_cases hmem : ((recents.filter (fun p => decide (t1 - p.2 ≤ 30))).any
      (fun p => p.1 == taskId)) = true
  · simp only [completionGuard] at hc1
    rw [if_pos hmem] at hc1
    simp at hc1
  · have hstate : completionGuard recents t1 taskId =
        (recents.filter (fun p => decide (t1 - p.2 ≤ 30)) ++ [(taskId, t1)], true) := by
      simp only [completionGuard]
      rw [if_neg hmem]
    have hkeep : t2 - t1 ≤ 30 := by omega
    have hsingle : List.filter (fun p => decide (t2 - p.2 ≤ 30)) [(taskId, t1)] =
        [(taskId, t1)] := by
      simp
      omega
    have hany : ((recents.filter (fun p => decide (t1 - p.2 ≤ 30)) ++
        [(taskId, t1)]).filter (fun p => decide (t2 - p.2 ≤ 30))).any
        (fun p => p.1 == taskId) = true := by
      rw [List.filter_append, List.any_append, hsingle]
      simp
    rw [hstate] at hc2
    simp only [completionGuard] at hc2
    rw [if_pos hany] at hc2
    simp at hc2

/-- Claim C8 witness: id 7 completed at t=100 and again at t=120 yields
exactly one remote call. -/
theorem completion_coalescing_at_most_one_call_witness :
    ¬((completionGuard [] 0 7).2 = true ∧
      (completionGuard (completionGuard [] 0 7).1 20 7).2 = true) :=
  completion_coalescing_at_most_one_call [] 0 20 7 (by decide) (by decide)

/-- Claim C7 counterexample: the reminder callback does NOT re-check that the
task is still past due - a task whose due date moved into the future but that
is still active and present is resent and rescheduled, contradicting the
claimed still-past-due re-check. -/
theorem reminder_resends_without_past_due_check :
    reminder_callback (some [(1, exFutureTask)]) 1 exReminderNow =
      (true, some (addSecondsP exReminderNow NOTIFICATION_REMINDER_INTERVAL)) ∧
    filterPred "past_due" none 7 exReminderNow exFutureTask = false := ⟨rfl, rfl⟩

/-- Claim C7 amended: when a 24-hour reminder fires, the callback re-checks
only that the task still exists and is still active (plus, for the unassigned
variant, still unassigned); if the checks pass it resends and reschedules
another 24-hour reminder, and otherwise it stops the chain silently. No
past-due re-check is performed. -/
theorem reminder_recheck_amended :
    ∀ (coordData : Option (List (Int × DonetickTask))) (taskId : Int) (now : DT),
      ((reminder_callback coordData taskId now).1 = true ↔
        ∃ m t, coordData = some m ∧ lookupA m taskId = some t ∧ t.is_active = true) ∧
      ((reminder_callback coordData taskId now).2 =
        if (reminder_callback coordData taskId now).1 then
          some (addSecondsP now NOTIFICATION_REMINDER_INTERVAL)
        else none) ∧
      ((unassigned_reminder_callback coordData taskId now).1 = true ↔
        ∃ m t, coordData = some m ∧ lookupA m taskId = some t ∧ t.is_active = true ∧
          t.assigned_to = none) ∧
      ((unassigned_reminder_callback coordData taskId now).2 =
        if (unassigned_reminder_callback coordData taskId now).1 then
          some (addSecondsP now NOTIFICATION_REMINDER_INTERVAL)
        else none) := by
  intro coordData taskId now
  refine ⟨?_, ?_, ?_, ?_⟩
  · constructor
    · intro h
      cases coordData with
      | none => simp [reminder_callback] at h
      | some m =>
        cases hl : lookupA m taskId with
        | none => simp [reminder_callback, hl] at h
        | some t =>
          simp only [reminder_callback, hl] at h
          split at h
          · exact ⟨m, t, rfl, hl, by assumption⟩
          · simp at h
    · rintro ⟨m, t, hcd, hl, hact⟩
      subst hcd
      simp [reminder_callback, hl, hact]
  · cases coordData with
    | none => simp [reminder_callback]
    | some m =>
      cases hl : lookupA m taskId with
      | none => simp [reminder_callback, hl]
      | some t =>
        simp only [reminder_callback, hl]
        split <;> simp
  · constructor
    · intro h
      cases coordData with
      | none => simp [unassigned_reminder_callback] at h
      | some m =>
        cases hl : lookupA m taskId with
        | none => simp [unassigned_reminder_callback, hl] at h
        | some t =>
          simp only [unassigned_reminder_callback, hl] at h
          split at h
          · rename_i hcond
            simp only [Bool.and_eq_true, beq_iff_eq] at hcond
            exact ⟨m, t, rfl, hl, hcond.1, hcond.2⟩
          · simp at h
    · rintro ⟨m, t, hcd, hl, hact, hun⟩
      subst hcd
      simp [unassigned_reminder_callback, hl, hact, hun]
  · cases coordData with
    | none => simp [unassigned_reminder_callback]
    | some m =>
      cases hl : lookupA m taskId with
      | none => simp [unassigned_reminder_callback, hl]
      | some t =>
        simp only [unassigned_reminder_callback, hl]
        split <;> simp

end Donetick
namespace Donetick

/-- Claim C5 counterexample: a weekly task with interval 0 due within the
Upcoming window is included by the code (the weekly branch treats interval 0
as 0 advance days is false - `interval or 1` makes it 1 week), while the
claim's formula `min(floor(interval*7/2),7) = 0` would exclude it: the code's
filter and the claim's rule disagree on this task. -/
theorem upcoming_advance_claim_counterexample :
    filterPred "upcoming" none 7 exUpcomingNow exWeekly0Task = true ∧
    upcomingClaimRule none 7 exUpcomingNow exWeekly0Task = false := ⟨rfl, rfl⟩

/-- Claim C5 amended: within the Upcoming window, daily and day-interval <= 4
recurrences are excluded; other recurring tasks are included exactly when
dueAt <= now + min(floor(periodDays/2), 7) days with periodDays computed from
a zero-or-missing interval replaced by 1 (weeks x7, months x30, years x365);
non-recurring tasks in the window are always included. -/
theorem upcoming_rule_matches_code_amended :
    ∀ (member : Option Int) (ud : Int) (now : DT) (task : DonetickTask),
      filterPred "upcoming" member ud now task = upcomingAmendedRule member ud now task := by
  intro member ud now task
  by_cases hact : task.is_active = true
  case neg => simp [filterPred, upcomingAmendedRule, hact]
  by_cases hassign : assigneeMatch member task = true
  case neg => simp [filterPred, upcomingAmendedRule, hact, hassign]
  cases hdue : task.next_due_date with
  | none => simp [filterPred, upcomingAmendedRule, hact, hassign, hdue]
  | some d =>
    by_cases hwin : ((localTodayEnd now).instant < (ensureUTC d).instant ∧
        (ensureUTC d).instant ≤ (addSecondsP (localTodayEnd now) (ud * 86400)).instant)
    case neg =>
      simp [filterPred, upcomingAmendedRule, hact, hassign, hdue, hwin]
    by_cases h1 : task.frequency_type = FREQUENCY_ONCE
    · simp [filterPred, upcomingAmendedRule, _is_frequent_recurrence,
        _get_recurrence_advance_days, FREQUENCY_ONCE, FREQUENCY_DAILY, FREQUENCY_WEEKLY, FREQUENCY_MONTHLY, FREQUENCY_YEARLY, FREQUENCY_INTERVAL, FREQUENCY_DAYS_OF_WEEK, FREQUENCY_DAY_OF_MONTH, FREQUENCY_NO_REPEAT, hact, hassign, hdue, hwin, h1]
    by_cases h2 : task.frequency_type = FREQUENCY_NO_REPEAT
    · simp [filterPred, upcomingAmendedRule, _is_frequent_recurrence,
        _get_recurrence_advance_days, FREQUENCY_ONCE, FREQUENCY_DAILY, FREQUENCY_WEEKLY, FREQUENCY_MONTHLY, FREQUENCY_YEARLY, FREQUENCY_INTERVAL, FREQUENCY_DAYS_OF_WEEK, FREQUENCY_DAY_OF_MONTH, FREQUENCY_NO_REPEAT, hact, hassign, hdue, hwin, h2]
    by_cases h3 : task.frequency_type = FREQUENCY_DAILY
    · simp [filterPred, upcomingAmendedRule, _is_frequent_recurrence,
        _get_recurrence_advance_days, FREQUENCY_ONCE, FREQUENCY_DAILY, FREQUENCY_WEEKLY, FREQUENCY_MONTHLY, FREQUENCY_YEARLY, FREQUENCY_INTERVAL, FREQUENCY_DAYS_OF_WEEK, FREQUENCY_DAY_OF_MONTH, FREQUENCY_NO_REPEAT, hact, hassign, hdue, hwin, h3]
    by_cases h4 : task.frequency_type = FREQUENCY_WEEKLY
    · simp [filterPred, upcomingAmendedRule, _is_frequent_recurrence,
        _get_recurrence_advance_days, amendedPeriodDays, FREQUENCY_ONCE, FREQUENCY_DAILY, FREQUENCY_WEEKLY, FREQUENCY_MONTHLY, FREQUENCY_YEARLY, FREQUENCY_INTERVAL, FREQUENCY_DAYS_OF_WEEK, FREQUENCY_DAY_OF_MONTH, FREQUENCY_NO_REPEAT, hact, hassign, hdue, hwin, h4]
      split_ifs <;> norm_num
    by_cases h5 : task.frequency_type = FREQUENCY_INTERVAL
    · by_cases hu1 : (task.frequency_metadata.getD {}).unit.getD "days" = "weeks"
      · simp [filterPred, upcomingAmendedRule, _is_frequent_recurrence,
          _get_recurrence_advance_days, amendedPeriodDays, FREQUENCY_ONCE, FREQUENCY_DAILY, FREQUENCY_WEEKLY, FREQUENCY_MONTHLY, FREQUENCY_YEARLY, FREQUENCY_INTERVAL, FREQUENCY_DAYS_OF_WEEK, FREQUENCY_DAY_OF_MONTH, FREQUENCY_NO_REPEAT, hact, hassign, hdue, hwin, h5, hu1]
        split_ifs <;> norm_num
      by_cases hu2 : (task.frequency_metadata.getD {}).unit.getD "days" = "months"
      · simp [filterPred, upcomingAmendedRule, _is_frequent_recurrence,
          _get_recurrence_advance_days, amendedPeriodDays, FREQUENCY_ONCE, FREQUENCY_DAILY, FREQUENCY_WEEKLY, FREQUENCY_MONTHLY, FREQUENCY_YEARLY, FREQUENCY_INTERVAL, FREQUENCY_DAYS_OF_WEEK, FREQUENCY_DAY_OF_MONTH, FREQUENCY_NO_REPEAT, hact, hassign, hdue, hwin, h5, hu1, hu2]
        split_ifs <;> norm_num
      by_cases hu3 : (task.frequency_metadata.getD {}).unit.getD "days" = "years"
      · simp [filterPred, upcomingAmendedRule, _is_frequent_recurrence,
          _get_recurrence_advance_days, amendedPeriodDays, FREQUENCY_ONCE, FREQUENCY_DAILY, FREQUENCY_WEEKLY, FREQUENCY_MONTHLY, FREQUENCY_YEARLY, FREQUENCY_INTERVAL, FREQUENCY_DAYS_OF_WEEK, FREQUENCY_DAY_OF_MONTH, FREQUENCY_NO_REPEAT, hact, hassign, hdue, hwin,
          h5, hu1, hu2, hu3]
        split_ifs <;> norm_num
      · by_cases hfreq : (task.frequency : Int) ≤ 4
        · by_cases hu4 : (task.frequency_metadata.getD {}).unit.getD "days" = "days"
          · simp [filterPred, upcomingAmendedRule, _is_frequent_recurrence,
              _get_recurrence_advance_days, amendedPeriodDays, FREQUENCY_ONCE, FREQUENCY_DAILY, FREQUENCY_WEEKLY, FREQUENCY_MONTHLY, FREQUENCY_YEARLY, FREQUENCY_INTERVAL, FREQUENCY_DAYS_OF_WEEK, FREQUENCY_DAY_OF_MONTH, FREQUENCY_NO_REPEAT, hact, hassign, hdue, hwin,
              h5, hu1, hu2, hu3, hu4, hfreq]
          · simp [filterPred, upcomingAmendedRule, _is_frequent_recurrence,
              _get_recurrence_advance_days, amendedPeriodDays, FREQUENCY_ONCE, FREQUENCY_DAILY, FREQUENCY_WEEKLY, FREQUENCY_MONTHLY, FREQUENCY_YEARLY, FREQUENCY_INTERVAL, FREQUENCY_DAYS_OF_WEEK, FREQUENCY_DAY_OF_MONTH, FREQUENCY_NO_REPEAT, hact, hassign, hdue, hwin,
              h5, hu1, hu2, hu3, hu4, hfreq]
            split_ifs <;> norm_num
        · simp [filterPred, upcomingAmendedRule, _is_frequent_recurrence,
            _get_recurrence_advance_days, amendedPeriodDays, FREQUENCY_ONCE, FREQUENCY_DAILY, FREQUENCY_WEEKLY, FREQUENCY_MONTHLY, FREQUENCY_YEARLY, FREQUENCY_INTERVAL, FREQUENCY_DAYS_OF_WEEK, FREQUENCY_DAY_OF_MONTH, FREQUENCY_NO_REPEAT, hact, hassign, hdue, hwin,
            h5, hu1, hu2, hu3, hfreq]
          split_ifs <;> norm_num
    · simp only [FREQUENCY_ONCE, FREQUENCY_NO_REPEAT, FREQUENCY_DAILY, FREQUENCY_WEEKLY,
        FREQUENCY_INTERVAL] at h1 h2 h3 h4 h5
      simp [filterPred, upcomingAmendedRule, _is_frequent_recurrence,
        _get_recurrence_advance_days, amendedPeriodDays, FREQUENCY_ONCE, FREQUENCY_DAILY, FREQUENCY_WEEKLY, FREQUENCY_MONTHLY, FREQUENCY_YEARLY, FREQUENCY_INTERVAL, FREQUENCY_DAYS_OF_WEEK, FREQUENCY_DAY_OF_MONTH, FREQUENCY_NO_REPEAT, hact, hassign, hdue, hwin,
        h1, h2, h3, h4, h5]

end Donetick
namespace Donetick

/-- Fixture: unassigned task due later today, 2026-01-01T15:00Z. -/
def exTodayTask : DonetickTask :=
  { id := 11, name := "today", next_due_date := some (mkDT 2026 1 1 15 0 0 (some 0)) }

/-- The running minimum of the transition fold is an element (or the seed)
and is a lower bound. -/
lemma foldl_min_spec (ds : List DT) : ∀ d : DT,
    (ds.foldl (fun a b => if b.instant < a.instant then b else a) d = d ∨
      ds.foldl (fun a b => if b.instant < a.instant then b else a) d ∈ ds) ∧
    (ds.foldl (fun a b => if b.instant < a.instant then b else a) d).instant ≤ d.instant ∧
    ∀ c ∈ ds, (ds.foldl (fun a b => if b.instant < a.instant then b else a) d).instant ≤
      c.instant := by
  induction ds with
  | nil =>
    intro d
    simp
  | cons x xs ih =>
    intro d
    simp only [List.foldl_cons]
    by_cases h : x.instant < d.instant
    · rw [if_pos h]
      obtain ⟨hmem, hle, hall⟩ := ih x
      refine ⟨?_, by omega, ?_⟩
      · rcases hmem with h1 | h1
        · refine Or.inr ?_
          rw [h1]
          exact List.mem_cons_self x xs
        · exact Or.inr (List.mem_cons_of_mem x h1)
      · intro c hc
        rcases List.mem_cons.mp hc with h1 | h1
        · subst h1
          omega
        · exact hall c h1
    · rw [if_neg h]
      obtain ⟨hmem, hle, hall⟩ := ih d
      refine ⟨?_, hle, ?_⟩
      · rcases hmem with h1 | h1
        · exact Or.inl h1
        · exact Or.inr (List.mem_cons_of_mem x h1)
      · intro c hc
        rcases List.mem_cons.mp hc with h1 | h1
        · subst h1
          omega
        · exact hall c h1

/-- `minByInstant` returns `none` exactly on the empty list, and otherwise
an element of minimal instant. -/
lemma minByInstant_spec (l : List DT) :
    (minByInstant l = none ↔ l = []) ∧
    ∀ r, minByInstant l = some r → r ∈ l ∧ ∀ c ∈ l, r.instant ≤ c.instant := by
  cases l with
  | nil => simp [minByInstant]
  | cons d ds =>
    constructor
    · simp [minByInstant]
    · intro r hr
      simp only [minByInstant, Option.some_inj] at hr
      obtain ⟨hmem, hle, hall⟩ := foldl_min_spec ds d
      subst hr
      constructor
      · rcases hmem with h1 | h1
        · rw [h1]
          exact List.mem_cons_self d ds
        · exact List.mem_cons_of_mem d h1
      · intro c hc
        rcases List.mem_cons.mp hc with h1 | h1
        · subst h1
          exact hle
        · exact hall c h1

/-- Claim C6 counterexample: the past-due transition calculator only considers
tasks due today - an active task due tomorrow would enter the past-due bucket
at its due instant, yet `_calculate_next_transition_time` returns no candidate
for it, so no wake-up is scheduled at the claimed earliest entry instant. -/
theorem transition_misses_future_entry :
    _calculate_next_transition_time "past_due" none 0 exTransitionNow [exTomorrowTask] = none ∧
    filterPred "past_due" none 7 exTransitionNow exTomorrowTask = false ∧
    filterPred "past_due" none 7 exTransitionLater exTomorrowTask = true := ⟨rfl, rfl, rfl⟩

/-- Claim C6 amended: the classifier cancels any pending wake-up and schedules
exactly one new one at the minimum of the computed candidates; for the
past-due bucket the candidates are the due instants of active tasks due today
(not all future entry instants), and with no candidate nothing is scheduled. -/
theorem transition_schedules_min_candidate :
    ∀ (listType : String) (member : Option Int) (off : Int) (now : DT)
      (tasks : List DonetickTask),
      (_calculate_next_transition_time listType member off now tasks = none ↔
        ∀ t ∈ tasks, transitionCandidate listType member off now t = none) ∧
      (∀ r, _calculate_next_transition_time listType member off now tasks = some r →
        (∃ t ∈ tasks, transitionCandidate listType member off now t = some r) ∧
        (∀ t c, t ∈ tasks → transitionCandidate listType member off now t = some c →
          r.instant ≤ c.instant)) ∧
      (∀ calcTime : Option DT, (_schedule_next_transition calcTime).length ≤ 1 ∧
        (_schedule_next_transition calcTime = [] ↔ calcTime = none)) := by
  intro listType member off now tasks
  refine ⟨?_, ?_, ?_⟩
  · rw [_calculate_next_transition_time, (minByInstant_spec _).1, List.filterMap_eq_nil]
  · intro r hr
    rw [_calculate_next_transition_time] at hr
    obtain ⟨hmem, hall⟩ := (minByInstant_spec _).2 r hr
    constructor
    · obtain ⟨t, ht, hct⟩ := List.mem_filterMap.mp hmem
      exact ⟨t, ht, hct⟩
    · intro t c ht hct
      exact hall c (List.mem_filterMap.mpr ⟨t, ht, hct⟩)
  · intro calcTime
    cases calcTime <;> simp [_schedule_next_transition]

/-- Claim C6 witness: with one task due later today the scheduler cancels the
pending timer and schedules exactly the task's due instant. -/
theorem transition_schedules_min_candidate_witness :
    (∃ t ∈ [exTodayTask], transitionCandidate "past_due" none 0 exTransitionNow t =
      some (addSecondsP (mkDT 2026 1 1 15 0 0 (some 0)) 1)) ∧
    (∀ t c, t ∈ [exTodayTask] →
      transitionCandidate "past_due" none 0 exTransitionNow t = some c →
      (addSecondsP (mkDT 2026 1 1 15 0 0 (some 0)) 1).instant ≤ c.instant) :=
  (transition_schedules_min_candidate "past_due" none 0 exTransitionNow [exTodayTask]).2.1
    (addSecondsP (mkDT 2026 1 1 15 0 0 (some 0)) 1) rfl

end Donetick
namespace Donetick

/-! ## Association-list lemmas -/

/-- Lookup of the overwritten key in the map-replace form of assignment. -/
lemma lookupA_map_overwrite_self {α : Type} (m : List (Int × α)) (k : Int) (v : α) :
    lookupA (m.map (fun p => if p.1 == k then (k, v) else p)) k =
      if m.any (fun p => p.1 == k) then some v else none := by
  induction m with
  | nil => simp [lookupA, List.find?]
  | cons p ps ih =>
    cases hp : p.1 == k
    · simp only [List.map_cons, hp, Bool.false_eq_true, if_false, List.any_cons,
        Bool.false_or]
      simp only [lookupA, List.find?, hp] at ih ⊢
      exact ih
    · simp only [List.map_cons, hp, if_true, List.any_cons, Bool.true_or, if_true]
      simp [lookupA, List.find?]

/-- Lookup of a different key is unchanged by the map-replace assignment. -/
lemma lookupA_map_overwrite_other {α : Type} (m : List (Int × α)) (k : Int) (v : α)
    (k2 : Int) (hne : k2 ≠ k) :
    lookupA (m.map (fun p => if p.1 == k then (k, v) else p)) k2 = lookupA m k2 := by
  induction m with
  | nil => simp
  | cons p ps ih =>
    cases hp : p.1 == k
    · simp only [List.map_cons, hp, Bool.false_eq_true, if_false]
      simp only [lookupA, List.find?] at ih ⊢
      cases hc : p.1 == k2
      · exact ih
      · rfl
    · have hp1 : p.1 = k := by simpa using hp
      have hk2 : (k == k2) = false := by
        simp only [beq_eq_false_iff_ne, ne_eq]
        omega
      have hp2 : (p.1 == k2) = false := by
        rw [hp1]
        exact hk2
      simp only [List.map_cons, hp, if_true]
      simp only [lookupA, List.find?, hk2, hp2] at ih ⊢
      exact ih

/-- Lookup of the appended key when it was absent. -/
lemma lookupA_append_single_self {α : Type} (m : List (Int × α)) (k : Int) (v : α)
    (h : m.any (fun p => p.1 == k) = false) :
    lookupA (m ++ [(k, v)]) k = some v := by
  induction m with
  | nil => simp [lookupA, List.find?]
  | cons p ps ih =>
    simp only [List.any_cons, Bool.or_eq_false_iff] at h
    simp only [List.cons_append, lookupA, List.find?, h.1]
    exact ih h.2

/-- Lookup of a different key ignores the appended entry. -/
lemma lookupA_append_single_other {α : Type} (m : List (Int × α)) (k : Int) (v : α)
    (k2 : Int) (hne : k2 ≠ k) :
    lookupA (m ++ [(k, v)]) k2 = lookupA m k2 := by
  have hk2 : (k == k2) = false := by
    simp only [beq_eq_false_iff_ne, ne_eq]
    omega
  induction m with
  | nil => simp [lookupA, List.find?, hk2]
  | cons p ps ih =>
    simp only [List.cons_append, lookupA, List.find?] at ih ⊢
    cases hc : p.1 == k2
    · exact ih
    · rfl

/-- Lookup after dict assignment at the same key. -/
lemma lookupA_insertA_self {α : Type} (m : List (Int × α)) (k : Int) (v : α) :
    lookupA (insertA m k v) k = some v := by
  unfold insertA
  split
  case isTrue h =>
    rw [lookupA_map_overwrite_self, if_pos h]
  case isFalse h =>
    refine lookupA_append_single_self m k v ?_
    revert h
    cases m.any (fun p => p.1 == k) <;> simp

/-- Lookup after dict assignment at a different key. -/
lemma lookupA_insertA_other {α : Type} (m : List (Int × α)) (k : Int) (v : α) (k2 : Int)
    (hne : k2 ≠ k) :
    lookupA (insertA m k v) k2 = lookupA m k2 := by
  unfold insertA
  split
  · exact lookupA_map_overwrite_other m k v k2 hne
  · exact lookupA_append_single_other m k v k2 hne

/-- Lookup in a key-filtered dict: kept keys keep their binding. -/
lemma lookupA_filter_keys {α : Type} (m : List (Int × α)) (g : Int → Bool) (k : Int)
    (hk : g k = true) :
    lookupA (m.filter (fun p => g p.1)) k = lookupA m k := by
  induction m with
  | nil => simp
  | cons p ps ih =>
    cases hp : p.1 == k
    · cases hg : g p.1
      · simp only [List.filter_cons, hg, Bool.false_eq_true, if_false]
        rw [ih]
        simp [lookupA, List.find?, hp]
      · simp only [List.filter_cons, hg, if_true, lookupA, List.find?, hp]
        simpa [lookupA] using ih
    · have hp1 : p.1 = k := by simpa using hp
      have hkk : (k == k) = true := by simp
      simp only [List.filter_cons, hp1, hk, if_true, lookupA, List.find?, hp, hkk]

/-- Lookup distributes over the hash map. -/
lemma lookupA_hashesOf (m : List (Int × DonetickTask)) (k : Int) :
    lookupA (hashesOf m) k = (lookupA m k).map _hash_task := by
  induction m with
  | nil => simp [hashesOf, lookupA, List.find?]
  | cons p ps ih =>
    cases hc : p.1 == k
    · simpa [hashesOf, lookupA, List.find?, hc] using ih
    · simp [hashesOf, lookupA, List.find?, hc]

end Donetick
namespace Donetick

/-! ## Notification-pass lemmas -/

/-- One notify step does not touch other ids' store entries. -/
lemma notifyStep_store_other (now : DT) (f : DonetickTask → Bool) (acc : NotifyResult)
    (t : DonetickTask) (i : Int) (hne : i ≠ t.id) :
    lookupA (notifyStep now f acc t).store i = lookupA acc.store i := by
  unfold notifyStep
  split
  · rfl
  · split
    · exact lookupA_insertA_other _ _ _ _ hne
    · rfl

/-- The fold leaves store entries of unprocessed ids unchanged. -/
lemma foldl_store_frozen (now : DT) (f : DonetickTask → Bool) :
    ∀ (l : List DonetickTask) (acc : NotifyResult) (i : Int),
      i ∉ l.map (fun t => t.id) →
      lookupA ((l.foldl (notifyStep now f) acc).store) i = lookupA acc.store i := by
  intro l
  induction l with
  | nil => intro acc i _; rfl
  | cons t rest ih =>
    intro acc i hi
    simp only [List.map_cons, List.mem_cons, not_or] at hi
    rw [List.foldl_cons, ih _ i (by simpa using hi.2), notifyStep_store_other _ _ _ _ _ hi.1]

/-- After a successful step, the pair (taskId, dueAt) is recorded. -/
lemma notifyStep_store_self (now : DT) (f : DonetickTask → Bool) (acc : NotifyResult)
    (t : DonetickTask) (hf : f t = true) :
    lookupA (notifyStep now f acc t).store t.id = some t.next_due_date := by
  unfold notifyStep
  split
  · rename_i h
    unfold was_notified at h
    cases hl : lookupA acc.store t.id with
    | none => rw [hl] at h; simp at h
    | some stored =>
      rw [hl] at h
      have hst : stored = t.next_due_date := by simpa using h
      rw [hst]
  · exact lookupA_insertA_self _ _ _

/-- After a pass with all sends succeeding and distinct ids, every processed
task's (taskId, dueAt) pair is recorded in the store. -/
lemma foldl_marks (now : DT) (f : DonetickTask → Bool) :
    ∀ (l : List DonetickTask) (acc : NotifyResult),
      (∀ t ∈ l, f t = true) → (l.map (fun t => t.id)).Nodup →
      ∀ t ∈ l, lookupA ((l.foldl (notifyStep now f) acc).store) t.id = some t.next_due_date := by
  intro l
  induction l with
  | nil => intro acc _ _ t ht; simp at ht
  | cons x rest ih =>
    intro acc hf hnd t ht
    simp only [List.map_cons, List.nodup_cons] at hnd
    rcases List.mem_cons.mp ht with h1 | h1
    · subst h1
      rw [List.foldl_cons, foldl_store_frozen _ _ _ _ _ hnd.1]
      exact notifyStep_store_self _ _ _ _ (hf t (List.mem_cons_self _ _))
    · rw [List.foldl_cons]
      exact ih _ (fun u hu => hf u (List.mem_cons_of_mem _ hu)) hnd.2 t h1

/-- A pass over tasks that are all already recorded does nothing. -/
lemma foldl_no_send (now : DT) (f : DonetickTask → Bool) :
    ∀ (l : List DonetickTask) (s : List (Int × Option DT)) (sent : List Int)
      (rem : List (Int × DT)),
      (∀ t ∈ l, was_notified s t.id t.next_due_date = true) →
      l.foldl (notifyStep now f) ⟨s, sent, rem⟩ = ⟨s, sent, rem⟩ := by
  intro l
  induction l with
  | nil => intro s sent rem _; rfl
  | cons x rest ih =>
    intro s sent rem h
    rw [List.foldl_cons]
    have hstep : notifyStep now f ⟨s, sent, rem⟩ x = ⟨s, sent, rem⟩ := by
      unfold notifyStep
      rw [h x (List.mem_cons_self _ _)]
      simp
    rw [hstep]
    exact ih s sent rem (fun u hu => h u (List.mem_cons_of_mem _ hu))

/-- Claim C3: one notification pass sends at most one past-due notification
per (taskId, dueAt) pair - a pair already in the persisted store is skipped,
after a send the pair is recorded so an identical second pass sends nothing,
and a changed dueAt for the same task is notified again. -/
theorem notification_dedup_per_due_pair :
    (∀ (s : List (Int × Option DT)) (member : Option Int) (ud : Int) (now : DT)
        (tasks : List DonetickTask),
      (tasks.map (fun t => t.id)).Nodup →
      (_check_and_notify_past_due_tasks true
        (_check_and_notify_past_due_tasks true s member ud now (fun _ => true) tasks).store
        member ud now (fun _ => true) tasks).sent = []) ∧
    (∀ (s : List (Int × Option DT)) (member : Option Int) (ud : Int) (now : DT)
        (t : DonetickTask) (d1 : Option DT),
      lookupA s t.id = some d1 → d1 ≠ t.next_due_date →
      filterPred "past_due" member ud now t = true →
      (_check_and_notify_past_due_tasks true s member ud now (fun _ => true) [t]).sent =
        [t.id]) := by
  constructor
  · intro s member ud now tasks hnd
    have hfilnd : ((_filter_tasks "past_due" member ud now tasks).map
        (fun t => t.id)).Nodup := by
      refine List.Nodup.sublist ?_ hnd
      exact List.Sublist.map _ (List.filter_sublist _)
    have hmark : ∀ t ∈ _filter_tasks "past_due" member ud now tasks,
        lookupA ((_check_and_notify_past_due_tasks true s member ud now
          (fun _ => true) tasks).store) t.id = some t.next_due_date := by
      intro t ht
      unfold _check_and_notify_past_due_tasks
      simp only [Bool.not_true, Bool.false_eq_true, if_false]
      exact foldl_marks now (fun _ => true) _ _ (fun _ _ => rfl) hfilnd t ht
    conv_lhs =>
      rw [_check_and_notify_past_due_tasks]
    simp only [Bool.not_true, Bool.false_eq_true, if_false]
    rw [foldl_no_send]
    intro t ht
    unfold was_notified
    have hcont : ((_filter_tasks "past_due" member ud now tasks).map
        (fun t => t.id)).contains t.id = true := by
      have : t.id ∈ (_filter_tasks "past_due" member ud now tasks).map (fun t => t.id) :=
        List.mem_map_of_mem _ ht
      simpa using this
    rw [lookupA_filter_keys _ _ _ hcont, hmark t ht]
    simp
  · intro s member ud now t d1 hl hne hpast
    unfold _check_and_notify_past_due_tasks _filter_tasks
    simp only [Bool.not_true, Bool.false_eq_true, if_false, List.filter_cons, hpast,
      List.filter_nil, if_true, List.map_cons, List.map_nil, List.foldl_cons,
      List.foldl_nil]
    have hcont : (([t.id] : List Int)).contains t.id = true := by simp
    have hwn : was_notified (s.filter (fun p => ([t.id] : List Int).contains p.1))
        t.id t.next_due_date = false := by
      unfold was_notified
      rw [lookupA_filter_keys _ _ _ hcont, hl]
      simpa using hne
    unfold notifyStep
    rw [hwn]
    simp

/-- Claim C3 witness: a concrete past-due task is notified once, not re-notified
on the second pass, and notified again after its due date changes. -/
theorem notification_dedup_per_due_pair_witness :
    (_check_and_notify_past_due_tasks true
      (_check_and_notify_past_due_tasks true [] none 7 exTransitionLater
        (fun _ => true) [exTomorrowTask]).store
      none 7 exTransitionLater (fun _ => true) [exTomorrowTask]).sent = [] ∧
    (_check_and_notify_past_due_tasks true [(9, some (mkDT 2025 12 30 10 0 0 (some 0)))]
      none 7 exTransitionLater (fun _ => true) [exTomorrowTask]).sent = [9] := by
  constructor
  · exact notification_dedup_per_due_pair.1 [] none 7 exTransitionLater [exTomorrowTask]
      (by decide)
  · exact notification_dedup_per_due_pair.2 [(9, some (mkDT 2025 12 30 10 0 0 (some 0)))]
      none 7 exTransitionLater exTomorrowTask (some (mkDT 2025 12 30 10 0 0 (some 0)))
      rfl (by decide) rfl

end Donetick
namespace Donetick

/-! ## Key-structure lemmas for the coordinator -/

/-- The map-replace form of assignment keeps the key list. -/
lemma keys_map_overwrite {α : Type} (m : List (Int × α)) (k : Int) (v : α) :
    (m.map (fun p => if p.1 == k then (k, v) else p)).map Prod.fst = m.map Prod.fst := by
  induction m with
  | nil => rfl
  | cons p ps ih =>
    cases hp : p.1 == k
    · simp only [List.map_cons, hp, Bool.false_eq_true, if_false, ih]
    · have hp1 : p.1 = k := by simpa using hp
      simp [hp1, ih]
      intro a b _
      split
      · rename_i hak
        exact hak.symm
      · rfl

/-- Keys after dict assignment. -/
lemma keys_insertA {α : Type} (m : List (Int × α)) (k : Int) (v : α) :
    (insertA m k v).map Prod.fst =
      if m.any (fun p => p.1 == k) then m.map Prod.fst else m.map Prod.fst ++ [k] := by
  unfold insertA
  split
  case isTrue h => rw [keys_map_overwrite]
  case isFalse h => simp

/-- Key membership is unchanged or extended by assignment, and duplicates
are never introduced. -/
lemma nodup_keys_insertA {α : Type} (m : List (Int × α)) (k : Int) (v : α)
    (h : (m.map Prod.fst).Nodup) : ((insertA m k v).map Prod.fst).Nodup := by
  rw [keys_insertA]
  split
  · exact h
  · rename_i habs
    have hk : k ∉ m.map Prod.fst := by
      intro hmem
      obtain ⟨p, hp, hpk⟩ := List.mem_map.mp hmem
      exact habs (List.any_eq_true.mpr ⟨p, hp, by simp [hpk]⟩)
    simp [List.nodup_append, h, hk]

/-- `buildMap` has pairwise-distinct keys. -/
lemma buildMap_keys_nodup (ts : List DonetickTask) :
    ((buildMap ts).map Prod.fst).Nodup := by
  have hgen : ∀ (l : List DonetickTask) (acc : List (Int × DonetickTask)),
      (acc.map Prod.fst).Nodup →
      ((l.foldl (fun m t => insertA m t.id t) acc).map Prod.fst).Nodup := by
    intro l
    induction l with
    | nil => intro acc h; exact h
    | cons t rest ih =>
      intro acc h
      exact ih _ (nodup_keys_insertA _ _ _ h)
  exact hgen ts [] (by simp)

/-- A pair of a nodup-keyed dict is found by lookup. -/
lemma lookupA_eq_some_of_mem {α : Type} (m : List (Int × α)) (p : Int × α)
    (hnd : (m.map Prod.fst).Nodup) (h : p ∈ m) : lookupA m p.1 = some p.2 := by
  induction m with
  | nil => simp at h
  | cons q qs ih =>
    simp only [List.map_cons, List.nodup_cons] at hnd
    rcases List.mem_cons.mp h with h1 | h1
    · subst h1
      simp [lookupA, List.find?]
    · have hq : (q.1 == p.1) = false := by
        have : p.1 ∈ qs.map Prod.fst := List.mem_map.mpr ⟨p, h1, rfl⟩
        rcases Bool.eq_false_or_eq_true (q.1 == p.1) with hb | hb
        · have hq1 : q.1 = p.1 := by simpa using hb
          exact absurd (hq1 ▸ ‹p.1 ∈ qs.map Prod.fst›) hnd.1
        · exact hb
      simp only [lookupA, List.find?, hq]
      exact ih hnd.2 h1

/-- A successful lookup produces a member pair. -/
lemma mem_of_lookupA_eq_some {α : Type} (m : List (Int × α)) (k : Int) (v : α)
    (h : lookupA m k = some v) : (k, v) ∈ m := by
  unfold lookupA at h
  cases hfind : m.find? (fun p => p.1 == k) with
  | none => rw [hfind] at h; simp at h
  | some p =>
    rw [hfind] at h
    have hpv : p.2 = v := by simpa using h
    have hmem := List.mem_of_find?_eq_some hfind
    have hpk : p.1 = k := by
      have := List.find?_some hfind
      simpa using this
    have : p = (k, v) := by
      cases p
      simp_all
    rw [this] at hmem
    exact hmem

/-- A present key has a successful lookup. -/
lemma lookupA_isSome_of_mem_keys {α : Type} (m : List (Int × α)) (k : Int)
    (h : k ∈ m.map Prod.fst) : ∃ v, lookupA m k = some v := by
  obtain ⟨p, hp, hpk⟩ := List.mem_map.mp h
  unfold lookupA
  cases hfind : m.find? (fun q => q.1 == k) with
  | none =>
    rw [List.find?_eq_none] at hfind
    exact absurd (by simp [hpk]) (hfind p hp)
  | some q => exact ⟨q.2, rfl⟩

end Donetick
namespace Donetick

/-- The added/removed detection fires exactly when the key sets differ. -/
lemma idset_diff_iff (m1 m2 : List Int) :
    ((m1.any (fun i => !(m2.contains i)) || m2.any (fun i => !(m1.contains i))) = true) ↔
      m1.toFinset ≠ m2.toFinset := by
  rw [Bool.or_eq_true]
  constructor
  · intro h heq
    rcases h with h1 | h1
    · obtain ⟨i, hi, hp⟩ := List.any_eq_true.mp h1
      have hni : i ∉ m2 := by simpa using hp
      have h3 : i ∈ m1.toFinset := List.mem_toFinset.mpr hi
      rw [heq] at h3
      exact hni (List.mem_toFinset.mp h3)
    · obtain ⟨i, hi, hp⟩ := List.any_eq_true.mp h1
      have hni : i ∉ m1 := by simpa using hp
      have h3 : i ∈ m2.toFinset := List.mem_toFinset.mpr hi
      rw [← heq] at h3
      exact hni (List.mem_toFinset.mp h3)
  · intro hne
    by_contra h
    push_neg at h
    have hor : (m1.any (fun i => !(m2.contains i))) = false ∧
        (m2.any (fun i => !(m1.contains i))) = false := by
      constructor
      · cases hx : m1.any (fun i => !(m2.contains i))
        · rfl
        · exact absurd hx h.1
      · cases hx : m2.any (fun i => !(m1.contains i))
        · rfl
        · exact absurd hx h.2
    apply hne
    apply Finset.ext
    intro i
    simp only [List.mem_toFinset]
    constructor
    · intro hi
      by_contra hni
      have h5 : m1.any (fun j => !(m2.contains j)) = true :=
        List.any_eq_true.mpr ⟨i, hi, by simpa using hni⟩
      rw [hor.1] at h5
      exact absurd h5 (by simp)
    · intro hi
      by_contra hni
      have h5 : m2.any (fun j => !(m1.contains j)) = true :=
        List.any_eq_true.mpr ⟨i, hi, by simpa using hni⟩
      rw [hor.2] at h5
      exact absurd h5 (by simp)

/-- The full change detector of `_async_update_data` fires exactly on
`ChangedSpec`. -/
lemma change_detector_iff (st : CoordState) (ts : List DonetickTask) (hwf : CoordWf st) :
    ((((buildMap ts).map Prod.fst).any
        (fun i => !((st.tasks_by_id.map Prod.fst).contains i)) ||
      (st.tasks_by_id.map Prod.fst).any
        (fun i => !(((buildMap ts).map Prod.fst).contains i)) ||
      (buildMap ts).any (fun p => (st.tasks_by_id.map Prod.fst).contains p.1 &&
        !(lookupA st.task_hashes p.1 == some (_hash_task p.2)))) = true) ↔
      ChangedSpec st ts := by
  rw [Bool.or_eq_true, Bool.or_eq_true]
  constructor
  · rintro ((h | h) | h)
    · refine Or.inl ((idset_diff_iff _ _).mp ?_)
      rw [Bool.or_eq_true]
      exact Or.inl h
    · refine Or.inl ((idset_diff_iff _ _).mp ?_)
      rw [Bool.or_eq_true]
      exact Or.inr h
    · refine Or.inr ?_
      obtain ⟨p, hp, hcond⟩ := List.any_eq_true.mp h
      rw [Bool.and_eq_true] at hcond
      obtain ⟨hcont, hbne⟩ := hcond
      have hkey : p.1 ∈ st.tasks_by_id.map Prod.fst := by simpa using hcont
      obtain ⟨tO, hlO⟩ := lookupA_isSome_of_mem_keys _ _ hkey
      have hlN : lookupA (buildMap ts) p.1 = some p.2 :=
        lookupA_eq_some_of_mem _ _ (buildMap_keys_nodup ts) hp
      have hhash : lookupA st.task_hashes p.1 = some (_hash_task tO) := by
        rw [hwf, lookupA_hashesOf, hlO]
        rfl
      have hne2 : _hash_task p.2 ≠ _hash_task tO := by
        rw [hhash] at hbne
        intro hcontra
        rw [hcontra] at hbne
        simp at hbne
      exact ⟨p.1, p.2, tO, hlN, hlO, hne2⟩
  · rintro (hne | ⟨i, tN, tO, hlN, hlO, hne⟩)
    · have h := (idset_diff_iff _ _).mpr hne
      rw [Bool.or_eq_true] at h
      exact Or.inl h
    · refine Or.inr ?_
      refine List.any_eq_true.mpr ⟨(i, tN), mem_of_lookupA_eq_some _ _ _ hlN, ?_⟩
      show ((st.tasks_by_id.map Prod.fst).contains i &&
        !(lookupA st.task_hashes i == some (_hash_task tN))) = true
      rw [Bool.and_eq_true]
      constructor
      · have h6 : i ∈ st.tasks_by_id.map Prod.fst :=
          List.mem_map.mpr ⟨(i, tO), mem_of_lookupA_eq_some _ _ _ hlO, rfl⟩
        simpa using h6
      · have hhash : lookupA st.task_hashes i = some (_hash_task tO) := by
          rw [hwf, lookupA_hashesOf, hlO]
          rfl
        rw [hhash]
        simp only [Bool.not_eq_true']
        simp only [beq_eq_false_iff_ne, ne_eq, Option.some_inj]
        exact fun hcontra => hne hcontra.symm

/-- When the detector fires, the state is replaced and the version bumped. -/
lemma update_eq_of_detector_true (st : CoordState) (ts : List DonetickTask)
    (h : ((((buildMap ts).map Prod.fst).any
        (fun i => !((st.tasks_by_id.map Prod.fst).contains i)) ||
      (st.tasks_by_id.map Prod.fst).any
        (fun i => !(((buildMap ts).map Prod.fst).contains i)) ||
      (buildMap ts).any (fun p => (st.tasks_by_id.map Prod.fst).contains p.1 &&
        !(lookupA st.task_hashes p.1 == some (_hash_task p.2)))) = true)) :
    _async_update_data st ts =
      ⟨buildMap ts, hashesOf (buildMap ts), st.data_version + 1⟩ := by
  simp only [_async_update_data]
  rw [h]
  simp

/-- When the detector does not fire, the state is returned unchanged. -/
lemma update_eq_of_detector_false (st : CoordState) (ts : List DonetickTask)
    (h : ((((buildMap ts).map Prod.fst).any
        (fun i => !((st.tasks_by_id.map Prod.fst).contains i)) ||
      (st.tasks_by_id.map Prod.fst).any
        (fun i => !(((buildMap ts).map Prod.fst).contains i)) ||
      (buildMap ts).any (fun p => (st.tasks_by_id.map Prod.fst).contains p.1 &&
        !(lookupA st.task_hashes p.1 == some (_hash_task p.2)))) = false)) :
    _async_update_data st ts = st := by
  simp only [_async_update_data]
  rw [h]
  simp

/-- A second poll with the same task list leaves the replaced state fixed. -/
lemma update_fixed_point (ts : List DonetickTask) (v : Int) :
    _async_update_data ⟨buildMap ts, hashesOf (buildMap ts), v⟩ ts =
      ⟨buildMap ts, hashesOf (buildMap ts), v⟩ := by
  have p1 : (((buildMap ts).map Prod.fst).any
      (fun i => !(((buildMap ts).map Prod.fst).contains i))) = false := by
    cases hx : ((buildMap ts).map Prod.fst).any
        (fun i => !(((buildMap ts).map Prod.fst).contains i))
    · rfl
    · obtain ⟨i, hi, hp⟩ := List.any_eq_true.mp hx
      have hni : i ∉ (buildMap ts).map Prod.fst := by simpa using hp
      exact absurd hi hni
  have p3 : ((buildMap ts).any (fun p => ((buildMap ts).map Prod.fst).contains p.1 &&
      !(lookupA (hashesOf (buildMap ts)) p.1 == some (_hash_task p.2)))) = false := by
    cases hx : (buildMap ts).any (fun p => ((buildMap ts).map Prod.fst).contains p.1 &&
        !(lookupA (hashesOf (buildMap ts)) p.1 == some (_hash_task p.2)))
    · rfl
    · obtain ⟨p, hp, hcond⟩ := List.any_eq_true.mp hx
      rw [Bool.and_eq_true] at hcond
      obtain ⟨_, hbne⟩ := hcond
      have hl : lookupA (hashesOf (buildMap ts)) p.1 = some (_hash_task p.2) := by
        rw [lookupA_hashesOf, lookupA_eq_some_of_mem _ _ (buildMap_keys_nodup ts) hp]
        rfl
      rw [hl] at hbne
      simp at hbne
  have hc : (((buildMap ts).map Prod.fst).any
      (fun i => !(((buildMap ts).map Prod.fst).contains i)) ||
    ((buildMap ts).map Prod.fst).any
      (fun i => !(((buildMap ts).map Prod.fst).contains i)) ||
    (buildMap ts).any (fun p => ((buildMap ts).map Prod.fst).contains p.1 &&
      !(lookupA (hashesOf (buildMap ts)) p.1 == some (_hash_task p.2)))) = false := by
    rw [p1, p3]
    simp
  exact update_eq_of_detector_false ⟨buildMap ts, hashesOf (buildMap ts), v⟩ ts hc

/-- Claim C1: under the coordinator invariant, `_async_update_data` bumps the
version exactly when the task-id set changed or some surviving task's
display-relevant hash changed; an unchanged poll returns the state untouched,
and a second poll with the same input is a no-op. -/
theorem coordinator_version_increments_iff_display_change :
    ∀ (st : CoordState) (ts : List DonetickTask), CoordWf st →
      ((_async_update_data st ts).data_version = st.data_version + 1 ↔ ChangedSpec st ts) ∧
      (¬ ChangedSpec st ts → _async_update_data st ts = st) ∧
      _async_update_data (_async_update_data st ts) ts = _async_update_data st ts := by
  intro st ts hwf
  have hiff := change_detector_iff st ts hwf
  rcases Bool.eq_false_or_eq_true ((((buildMap ts).map Prod.fst).any
      (fun i => !((st.tasks_by_id.map Prod.fst).contains i)) ||
    (st.tasks_by_id.map Prod.fst).any
      (fun i => !(((buildMap ts).map Prod.fst).contains i)) ||
    (buildMap ts).any (fun p => (st.tasks_by_id.map Prod.fst).contains p.1 &&
      !(lookupA st.task_hashes p.1 == some (_hash_task p.2))))) with hb | hbf
  · have hupd := update_eq_of_detector_true st ts hb
    have hch : ChangedSpec st ts := hiff.mp hb
    refine ⟨?_, fun hn => absurd hch hn, ?_⟩
    · rw [hupd]
      exact ⟨fun _ => hch, fun _ => rfl⟩
    · rw [hupd]
      exact update_fixed_point ts (st.data_version + 1)
  · have hupd := update_eq_of_detector_false st ts hbf
    have hnch : ¬ ChangedSpec st ts := by
      intro hc
      have ht := hiff.mpr hc
      rw [hbf] at ht
      exact absurd ht (by simp)
    refine ⟨?_, fun _ => hupd, ?_⟩
    · rw [hupd]
      constructor
      · intro h
        exact absurd h (by omega)
      · intro h
        exact absurd h hnch
    · rw [hupd]
      exact hupd

/-- Claim C1 witness: the first poll of one task over the empty state bumps
the version, and repeating it is a fixed point. -/
theorem coordinator_version_increments_witness :
    ((_async_update_data ⟨[], [], 0⟩ [exTomorrowTask]).data_version =
        (⟨[], [], 0⟩ : CoordState).data_version + 1 ↔
      ChangedSpec ⟨[], [], 0⟩ [exTomorrowTask]) ∧
    (¬ ChangedSpec ⟨[], [], 0⟩ [exTomorrowTask] →
      _async_update_data ⟨[], [], 0⟩ [exTomorrowTask] = ⟨[], [], 0⟩) ∧
    _async_update_data (_async_update_data ⟨[], [], 0⟩ [exTomorrowTask]) [exTomorrowTask] =
      _async_update_data ⟨[], [], 0⟩ [exTomorrowTask] :=
  coordinator_version_increments_iff_display_change ⟨[], [], 0⟩ [exTomorrowTask] rfl

end Donetick
